import Mathlib

/-
  Verification of the client-side resilience and caching layer:
  a shallow embedding of the TTL/LRU cache, the circuit breaker with
  exponential backoff, the sliding-window rate limiter and the API
  monitor, together with proofs of the specified properties.

  Timestamps and durations are milliseconds.  The circuit breaker uses
  rationals for times and timeouts (the backoff multiplier may be
  fractional); the cache, rate limiter and monitor use integers for
  timestamps.  Each method that reads the clock takes the current time
  as an explicit parameter.
-/

namespace RealtimeRegister

/- ===================================================================
   Circuit breaker, embedded from src/src/monitoring/circuit-breaker.ts
   =================================================================== -/

inductive CircuitBreakerState
  | CLOSED
  | OPEN
  | HALF_OPEN
deriving DecidableEq, Repr

structure CircuitBreakerConfig where
  failureThreshold : Nat
  successThreshold : Nat
  monitoringPeriod : ℚ
  timeout : ℚ
  maxTimeout : ℚ
  backoffMultiplier : ℚ
  resetThreshold : Nat
deriving DecidableEq, Repr

structure CircuitBreaker where
  config : CircuitBreakerConfig
  state : CircuitBreakerState
  failureCount : Nat
  successCount : Nat
  consecutiveSuccesses : Nat
  totalRequests : Nat
  totalFailures : Nat
  totalSuccesses : Nat
  lastFailureTime : Option ℚ
  lastSuccessTime : Option ℚ
  currentTimeout : ℚ
  stateChangedAt : ℚ
  failures : List ℚ
deriving DecidableEq, Repr

/-- Result record returned by CircuitBreaker.execute; the optional
fields are absent (none) exactly when the source leaves them unset. -/
structure CircuitBreakerResult (A E : Type) where
  allowed : Bool
  result : Option A
  error : Option E
  state : CircuitBreakerState
  retryAfter : Option ℚ
  currentFailures : Nat
  currentSuccesses : Nat
deriving DecidableEq, Repr

namespace CircuitBreaker

/-- Constructor: fields start at their declared initial values,
currentTimeout at config.timeout, stateChangedAt at Date.now(). -/
def mk0 (config : CircuitBreakerConfig) (now : ℚ) : CircuitBreaker :=
  { config := config
    state := .CLOSED
    failureCount := 0
    successCount := 0
    consecutiveSuccesses := 0
    totalRequests := 0
    totalFailures := 0
    totalSuccesses := 0
    lastFailureTime := none
    lastSuccessTime := none
    currentTimeout := config.timeout
    stateChangedAt := now
    failures := [] }

/-- validateConfig, as a decidable predicate (the source throws when it
fails). -/
def configValid (c : CircuitBreakerConfig) : Prop :=
  0 < c.failureThreshold ∧ 0 < c.successThreshold ∧ 0 < c.monitoringPeriod ∧
  0 < c.timeout ∧ c.timeout ≤ c.maxTimeout ∧ 1 < c.backoffMultiplier ∧
  0 < c.resetThreshold

instance (c : CircuitBreakerConfig) : Decidable (configValid c) := by
  unfold configValid; infer_instance

def transitionToOpen (cb : CircuitBreaker) (now : ℚ) : CircuitBreaker :=
  { cb with
    state := .OPEN
    stateChangedAt := now
    successCount := 0
    currentTimeout :=
      min (cb.currentTimeout * cb.config.backoffMultiplier) cb.config.maxTimeout }

def transitionToHalfOpen (cb : CircuitBreaker) (now : ℚ) : CircuitBreaker :=
  { cb with
    state := .HALF_OPEN
    stateChangedAt := now
    successCount := 0 }

def transitionToClosed (cb : CircuitBreaker) (now : ℚ) : CircuitBreaker :=
  { cb with
    state := .CLOSED
    stateChangedAt := now
    failureCount := 0
    successCount := 0
    currentTimeout :=
      max cb.config.timeout (cb.currentTimeout / cb.config.backoffMultiplier) }

/-- onSuccess; Nat subtraction on failureCount is the source's
Math.max(0, failureCount - 1). -/
def onSuccess (cb : CircuitBreaker) (now : ℚ) : CircuitBreaker :=
  let cb :=
    { cb with
      lastSuccessTime := some now
      totalSuccesses := cb.totalSuccesses + 1
      consecutiveSuccesses := cb.consecutiveSuccesses + 1
      failureCount := cb.failureCount - 1 }
  match cb.state with
  | .HALF_OPEN =>
      let cb := { cb with successCount := cb.successCount + 1 }
      if cb.config.successThreshold ≤ cb.successCount then
        transitionToClosed cb now
      else cb
  | .CLOSED =>
      if cb.config.resetThreshold ≤ cb.consecutiveSuccesses then
        { cb with currentTimeout := cb.config.timeout }
      else cb
  | .OPEN => cb

def onFailure (cb : CircuitBreaker) (now : ℚ) : CircuitBreaker :=
  let cb :=
    { cb with
      lastFailureTime := some now
      totalFailures := cb.totalFailures + 1
      failureCount := cb.failureCount + 1
      consecutiveSuccesses := 0
      failures := cb.failures ++ [now] }
  match cb.state with
  | .CLOSED =>
      if cb.config.failureThreshold ≤ cb.failureCount then
        transitionToOpen cb now
      else cb
  | .HALF_OPEN => transitionToOpen cb now
  | .OPEN => cb

def cleanupOldFailures (cb : CircuitBreaker) (now : ℚ) : CircuitBreaker :=
  let cutoffTime := now - cb.config.monitoringPeriod
  let failures := cb.failures.filter (fun timestamp => cutoffTime < timestamp)
  { cb with failures := failures, failureCount := failures.length }

def getRetryAfter (cb : CircuitBreaker) (now : ℚ) : ℚ :=
  if cb.state = .OPEN then
    max 0 (cb.currentTimeout - (now - cb.stateChangedAt))
  else 0

/-- shouldAllowRequest is stateful: in OPEN state, once the timeout has
elapsed, it transitions the breaker to HALF_OPEN before answering. -/
def shouldAllowRequest (cb : CircuitBreaker) (now : ℚ) :
    Bool × CircuitBreaker :=
  match cb.state with
  | .CLOSED => (true, cb)
  | .OPEN =>
      if cb.currentTimeout ≤ now - cb.stateChangedAt then
        (true, transitionToHalfOpen cb now)
      else (false, cb)
  | .HALF_OPEN =>
      (decide (cb.successCount < cb.config.successThreshold), cb)

/-- execute.  The wrapped asynchronous operation is embedded as a
state-threading function op over an external world S together with an
Except outcome; op is applied to the world exactly when the source
invokes the operation, so the returned world witnesses how many times
it ran. -/
def execute {S A E : Type} (cb : CircuitBreaker) (now : ℚ)
    (op : S → S × Except E A) (s : S) :
    CircuitBreakerResult A E × CircuitBreaker × S :=
  let cb := { cb with totalRequests := cb.totalRequests + 1 }
  let cb := cleanupOldFailures cb now
  let ar := shouldAllowRequest cb now
  if ar.1 then
    let cb := ar.2
    let r := op s
    match r.2 with
    | .ok v =>
        let cb := onSuccess cb now
        (⟨true, some v, none, cb.state, none, cb.failureCount, cb.successCount⟩,
          cb, r.1)
    | .error e =>
        let cb := onFailure cb now
        (⟨true, none, some e, cb.state, none, cb.failureCount, cb.successCount⟩,
          cb, r.1)
  else
    let cb := ar.2
    (⟨false, none, none, cb.state, some (getRetryAfter cb now),
        cb.failureCount, cb.successCount⟩, cb, s)

end CircuitBreaker

/- ===================================================================
   Sliding-window rate limiter, embedded from the rate-limiter module
   (src/unnamed/part_002).  The window table is a JavaScript Map from
   window-start key to count, modelled as an insertion-ordered
   association list with Map semantics (set replaces in place, new keys
   are appended).
   =================================================================== -/

structure RateLimitConfig where
  maxRequests : Nat
  periodMs : Int
  windowMs : Int
  burstSize : Nat
  burstWindowMs : Int
deriving DecidableEq, Repr

structure RateLimitResult where
  allowed : Bool
  remaining : Nat
  limit : Nat
  resetTime : Int
  windowStart : Int
  retryAfter : Option Int
deriving DecidableEq, Repr

structure SlidingWindowRateLimiter where
  config : RateLimitConfig
  windows : List (Int × Nat)
deriving DecidableEq, Repr

namespace SlidingWindowRateLimiter

/-- Map.get on the window table. -/
def windowsGet (l : List (Int × Nat)) (k : Int) : Option Nat :=
  (l.find? (fun p => p.1 == k)).map (fun p => p.2)

/-- Map.set on the window table: replace in place, else append. -/
def windowsSet : List (Int × Nat) → Int → Nat → List (Int × Nat)
  | [], k, v => [(k, v)]
  | p :: rest, k, v =>
      if p.1 == k then (k, v) :: rest else p :: windowsSet rest k v

/-- Fresh limiter (empty window table).  The constructor's config
defaulting and its periodMs/windowMs validation are not needed by the
claims, which supply complete, valid configurations. -/
def mk0 (config : RateLimitConfig) : SlidingWindowRateLimiter :=
  { config := config, windows := [] }

/-- getWindowKey: Math.floor(timestamp / windowMs) * windowMs. -/
def getWindowKey (cfg : RateLimitConfig) (timestamp : Int) : Int :=
  (Int.fdiv timestamp cfg.windowMs) * cfg.windowMs

/-- cleanupExpiredWindows deletes every window whose key is older than
now - periodMs. -/
def cleanupExpiredWindows (rl : SlidingWindowRateLimiter) (now : Int) :
    SlidingWindowRateLimiter :=
  let cutoffTime := now - rl.config.periodMs
  { rl with windows := rl.windows.filter (fun p => decide (cutoffTime ≤ p.1)) }

def getCurrentUsage (rl : SlidingWindowRateLimiter) : Nat :=
  (rl.windows.map (fun p => p.2)).sum

def getResetTime (cfg : RateLimitConfig) (now : Int) : Int :=
  let oldestAllowedWindow := now - cfg.periodMs + cfg.windowMs
  oldestAllowedWindow + cfg.periodMs

/-- The oldest window key holding a positive count; none plays the role
of the source's Infinity sentinel. -/
def oldestNonEmptyWindow (l : List (Int × Nat)) : Option Int :=
  l.foldl
    (fun oldest p =>
      if 0 < p.2 then
        match oldest with
        | none => some p.1
        | some o => if p.1 < o then some p.1 else some o
      else oldest)
    none

def getRetryAfter (rl : SlidingWindowRateLimiter) (now : Int) : Int :=
  match oldestNonEmptyWindow rl.windows with
  | none => rl.config.windowMs
  | some oldestWindow =>
      let expiryTime := oldestWindow + rl.config.periodMs
      max 0 (expiryTime - now)

/-- checkLimit (the unused identifier argument is dropped).  Nat
subtraction in remaining is the source's Math.max(0, ...). -/
def checkLimit (rl : SlidingWindowRateLimiter) (now : Int) (consume : Bool) :
    RateLimitResult × SlidingWindowRateLimiter :=
  let currentWindow := getWindowKey rl.config now
  let rl := cleanupExpiredWindows rl now
  let currentUsage := getCurrentUsage rl
  let allowed := decide (currentUsage < rl.config.maxRequests)
  let rl :=
    if allowed && consume then
      let currentCount := (windowsGet rl.windows currentWindow).getD 0
      { rl with windows := windowsSet rl.windows currentWindow (currentCount + 1) }
    else rl
  let remaining :=
    rl.config.maxRequests - currentUsage - (if consume && allowed then 1 else 0)
  ({ allowed := allowed
     remaining := remaining
     limit := rl.config.maxRequests
     resetTime := getResetTime rl.config now
     windowStart := currentWindow
     retryAfter := if allowed then none else some (getRetryAfter rl now) }, rl)

/-- Sum of the counts of the windows whose start time lies within
[lo, hi]; the quantity of the rate-limiter admission invariant. -/
def sumCountsInRange (l : List (Int × Nat)) (lo hi : Int) : Nat :=
  ((l.filter (fun p => decide (lo ≤ p.1) && decide (p.1 ≤ hi))).map
    (fun p => p.2)).sum

end SlidingWindowRateLimiter

/- ===================================================================
   TTL/LRU cache, embedded from the lru-cache module
   (src/unnamed/part_000).  The JavaScript Map doubles as the recency
   order (most recently touched at the tail); it is modelled as an
   insertion-ordered association list with Map semantics.  The
   JS-runtime-specific byte estimator (string length, JSON
   serialization, ...) is a parameter of the cache; entries record the
   estimate computed when they were stored, as in the source.
   =================================================================== -/

structure CacheEntry (α : Type) where
  value : α
  timestamp : Int
  ttl : Int
  size : Option Nat
deriving DecidableEq, Repr

structure LRUCache (α : Type) where
  maxSize : Nat
  defaultTTL : Int
  memoryThreshold : Nat
  estimate : String → α → Nat
  entries : List (String × CacheEntry α)
  hits : Nat
  misses : Nat
  evictions : Nat
  cleanups : Nat
  currentMemoryUsage : Nat

namespace LRUCache

variable {α : Type}

/-- Map.get. -/
def entriesGet (l : List (String × CacheEntry α)) (k : String) :
    Option (CacheEntry α) :=
  (l.find? (fun p => p.1 == k)).map (fun p => p.2)

/-- Map.delete: removes the entry with the given key (the first match). -/
def entriesDelete : List (String × CacheEntry α) → String →
    List (String × CacheEntry α)
  | [], _ => []
  | p :: rest, k => if p.1 == k then rest else p :: entriesDelete rest k

/-- Map.set: replace in place, else append at the tail. -/
def entriesSet : List (String × CacheEntry α) → String → CacheEntry α →
    List (String × CacheEntry α)
  | [], k, e => [(k, e)]
  | p :: rest, k, e =>
      if p.1 == k then (k, e) :: rest else p :: entriesSet rest k e

/-- Fresh cache with the given options (cleanupInterval and the debug
flag only drive the background timer and logging and are not part of
the state). -/
def mk0 (maxSize : Nat) (defaultTTL : Int) (memoryThreshold : Nat)
    (estimate : String → α → Nat) : LRUCache α :=
  { maxSize := maxSize, defaultTTL := defaultTTL
    memoryThreshold := memoryThreshold, estimate := estimate
    entries := [], hits := 0, misses := 0, evictions := 0, cleanups := 0
    currentMemoryUsage := 0 }

/-- isExpired: zero or negative TTL is immediately expired, otherwise
expired once now - timestamp > ttl. -/
def isExpired (entry : CacheEntry α) (now : Int) : Bool :=
  decide (entry.ttl ≤ 0) || decide (entry.ttl < now - entry.timestamp)

/-- The byte size charged for an entry: the recorded estimate, else a
fresh estimate (entry.size ?? this.estimateSize(key, entry.value)). -/
def entrySize (c : LRUCache α) (k : String) (e : CacheEntry α) : Nat :=
  e.size.getD (c.estimate k e.value)

/-- updateMemoryUsage for an insertion. -/
def memAdd (c : LRUCache α) (k : String) (e : CacheEntry α) : LRUCache α :=
  { c with currentMemoryUsage := c.currentMemoryUsage + entrySize c k e }

/-- updateMemoryUsage for a removal; Nat subtraction is the source's
Math.max(0, current - size). -/
def memDelete (c : LRUCache α) (k : String) (e : CacheEntry α) : LRUCache α :=
  { c with currentMemoryUsage := c.currentMemoryUsage - entrySize c k e }

def get (c : LRUCache α) (key : String) (now : Int) :
    Option α × LRUCache α :=
  match entriesGet c.entries key with
  | none => (none, { c with misses := c.misses + 1 })
  | some entry =>
      if isExpired entry now then
        let c := memDelete { c with entries := entriesDelete c.entries key }
          key entry
        (none, { c with misses := c.misses + 1 })
      else
        (some entry.value,
          { c with
            entries := entriesSet (entriesDelete c.entries key) key entry
            hits := c.hits + 1 })

def evictLRU (c : LRUCache α) : LRUCache α :=
  match c.entries with
  | [] => c
  | (firstKey, entry) :: rest =>
      let c := memDelete { c with entries := rest } firstKey entry
      { c with evictions := c.evictions + 1 }

/-- cleanup: the source iterates the map and deletes each expired entry
it visits, adjusting the memory counter per removal; since map keys are
unique this removes exactly the expired entries and subtracts their
sizes in visit order. -/
def cleanup (c : LRUCache α) (now : Int) : Nat × LRUCache α :=
  let initialSize := c.entries.length
  let expired := c.entries.filter (fun p => isExpired p.2 now)
  let kept := c.entries.filter (fun p => !isExpired p.2 now)
  let newMem :=
    expired.foldl (fun m p => m - entrySize c p.1 p.2) c.currentMemoryUsage
  let c := { c with entries := kept, currentMemoryUsage := newMem }
  let cleanedCount := initialSize - c.entries.length
  if 0 < cleanedCount then
    (cleanedCount, { c with cleanups := c.cleanups + 1 })
  else (cleanedCount, c)

/-- The while-loop of performMemoryCleanup: evict LRU entries until the
memory usage is back under the threshold or the cache is empty. -/
def memoryEvictLoop (c : LRUCache α) : LRUCache α :=
  if c.memoryThreshold < c.currentMemoryUsage then
    match h : c.entries with
    | [] => c
    | _ :: _ => memoryEvictLoop (evictLRU c)
  else c
termination_by c.entries.length
decreasing_by simp [evictLRU, h, memDelete]

def performMemoryCleanup (c : LRUCache α) (now : Int) : LRUCache α :=
  let c := (cleanup c now).2
  let c := { c with cleanups := c.cleanups + 1 }
  memoryEvictLoop c

def set (c : LRUCache α) (key : String) (value : α) (ttl : Option Int)
    (now : Int) : LRUCache α :=
  let actualTTL := ttl.getD c.defaultTTL
  let estimatedSize := c.estimate key value
  let c :=
    match entriesGet c.entries key with
    | some existingEntry =>
        memDelete { c with entries := entriesDelete c.entries key } key
          existingEntry
    | none =>
        if c.maxSize ≤ c.entries.length then evictLRU c else c
  let entry : CacheEntry α :=
    { value := value, timestamp := now, ttl := actualTTL
      size := some estimatedSize }
  let c := memAdd { c with entries := entriesSet c.entries key entry } key entry
  if c.memoryThreshold < c.currentMemoryUsage then performMemoryCleanup c now
  else c

/-- has: existence check without recency update; still deletes an
expired entry, but (unlike get/delete/cleanup) without touching the
memory counter. -/
def has (c : LRUCache α) (key : String) (now : Int) : Bool × LRUCache α :=
  match entriesGet c.entries key with
  | none => (false, c)
  | some entry =>
      if isExpired entry now then
        (false, { c with entries := entriesDelete c.entries key })
      else (true, c)

def deleteKey (c : LRUCache α) (key : String) : Bool × LRUCache α :=
  match entriesGet c.entries key with
  | some entry =>
      (true, memDelete { c with entries := entriesDelete c.entries key } key
        entry)
  | none => (false, c)

def clear (c : LRUCache α) : LRUCache α :=
  { c with entries := [], hits := 0, misses := 0, evictions := 0
           cleanups := 0, currentMemoryUsage := 0 }

def size (c : LRUCache α) : Nat := c.entries.length

/-- Byte size of one stored pair under an estimator. -/
def pairSize (est : String → α → Nat) (p : String × CacheEntry α) : Nat :=
  p.2.size.getD (est p.1 p.2.value)

/-- Sum of the stored size estimates of an association list. -/
def sizesOf (est : String → α → Nat) (l : List (String × CacheEntry α)) : Nat :=
  (l.map (pairSize est)).sum

/-- Sum of the stored entries' size estimates, the value
currentMemoryUsage is supposed to track. -/
def sumSizes (c : LRUCache α) : Nat :=
  (c.entries.map (fun p => entrySize c p.1 p.2)).sum

/-- The memory-accounting invariant of the cache. -/
def MemInv (c : LRUCache α) : Prop :=
  c.currentMemoryUsage = sumSizes c

/-- One cache operation, for quantifying over operation sequences. -/
inductive CacheOp (α : Type) where
  | setOp (k : String) (v : α) (ttl : Option Int) (now : Int)
  | getOp (k : String) (now : Int)
  | hasOp (k : String) (now : Int)
  | deleteOp (k : String)
  | clearOp
  | cleanupOp (now : Int)

def applyOp (c : LRUCache α) : CacheOp α → LRUCache α
  | .setOp k v ttl now => set c k v ttl now
  | .getOp k now => (get c k now).2
  | .hasOp k now => (has c k now).2
  | .deleteOp k => (deleteKey c k).2
  | .clearOp => clear c
  | .cleanupOp now => (cleanup c now).2

end LRUCache

/- ===================================================================
   API monitor, embedded from src/src/monitoring/api-monitor.ts.
   Alert ids come from a deterministic counter standing in for the
   random id generator (ids never influence control flow); an alert's
   details record is reduced to the one field the monitor's logic reads
   back, details.identifier.  Console logging has no state; event
   emission is recorded in an emitted list.
   =================================================================== -/

inductive MonitoringEventType
  | RATE_LIMIT_WARNING
  | RATE_LIMIT_EXCEEDED
  | CIRCUIT_BREAKER_OPENED
  | CIRCUIT_BREAKER_CLOSED
  | CIRCUIT_BREAKER_HALF_OPEN
  | API_ERROR
  | PERFORMANCE_WARNING
  | HEALTH_CHECK_FAILED
  | METRICS_SUMMARY
deriving DecidableEq, Repr, BEq

inductive AlertSeverity
  | INFO
  | WARNING
  | ERROR
  | CRITICAL
deriving DecidableEq, Repr, BEq

inductive AlertSource
  | rate_limiter
  | circuit_breaker
  | api_client
  | health_check
deriving DecidableEq, Repr, BEq

structure MonitoringAlert where
  id : Nat
  timestamp : Int
  type : MonitoringEventType
  severity : AlertSeverity
  identifier : Option String
  source : AlertSource
  resolved : Bool
  resolvedAt : Option Int
deriving DecidableEq, Repr

structure MonitoringConfig where
  enabled : Bool
  rateLimitWarningThreshold : ℚ
  circuitBreakerFailureThreshold : ℚ
  responseTimeThreshold : ℚ
  enableConsoleLogging : Bool
  enableEventEmission : Bool
  maxStoredAlerts : Nat
  alertAggregationWindow : Int
  metricsInterval : Int
deriving DecidableEq, Repr

structure ApiMetrics where
  totalRequests : Nat
  successfulRequests : Nat
  failedRequests : Nat
  averageResponseTime : ℚ
  lastRequestTime : Option Int
  lastErrorTime : Option Int
  errorRate : ℚ
deriving DecidableEq, Repr

/-- The circuit-breaker metrics fields the monitor's logic consults
(state, totalRequests, totalFailures); the remaining metrics fields are
copied verbatim into alert details and never read back. -/
structure CircuitBreakerMetricsView where
  state : CircuitBreakerState
  totalRequests : Nat
  totalFailures : Nat
deriving DecidableEq, Repr

structure ApiMonitor where
  config : MonitoringConfig
  alerts : List MonitoringAlert
  apiMetrics : ApiMetrics
  startTime : Int
  requestTimes : List ℚ
  nextAlertId : Nat
  emitted : List MonitoringAlert
deriving DecidableEq, Repr

namespace ApiMonitor

/-- The constructor's config defaults (config spread over them). -/
def defaultConfig : MonitoringConfig :=
  { enabled := true
    rateLimitWarningThreshold := 80
    circuitBreakerFailureThreshold := 50
    responseTimeThreshold := 5000
    enableConsoleLogging := true
    enableEventEmission := true
    maxStoredAlerts := 1000
    alertAggregationWindow := 60000
    metricsInterval := 30000 }

def mk0 (config : MonitoringConfig) (now : Int) : ApiMonitor :=
  { config := config
    alerts := []
    apiMetrics :=
      { totalRequests := 0, successfulRequests := 0, failedRequests := 0
        averageResponseTime := 0, lastRequestTime := none
        lastErrorTime := none, errorRate := 0 }
    startTime := now
    requestTimes := []
    nextAlertId := 0
    emitted := [] }

/-- cleanupAlerts: drop alerts older than 24 hours (or resolved with an
old resolution), then keep only the newest maxStoredAlerts, sorting by
timestamp descending as the source does. -/
def cleanupAlerts (m : ApiMonitor) (now : Int) : ApiMonitor :=
  let cutoffTime := now - 24 * 60 * 60 * 1000
  let alerts := m.alerts.filter (fun alert =>
    (!alert.resolved ||
      (match alert.resolvedAt with
       | some r => decide (cutoffTime < r)
       | none => false)) &&
    decide (cutoffTime < alert.timestamp))
  let alerts :=
    if m.config.maxStoredAlerts < alerts.length then
      (alerts.mergeSort (fun a b => b.timestamp ≤ a.timestamp)).take
        m.config.maxStoredAlerts
    else alerts
  { m with alerts := alerts }

/-- createAlert: appends the alert, emits it when event emission is on,
and runs cleanupAlerts every hundredth stored alert. -/
def createAlert (m : ApiMonitor) (type : MonitoringEventType)
    (severity : AlertSeverity) (identifier : Option String)
    (source : AlertSource) (now : Int) : ApiMonitor :=
  if !m.config.enabled then m
  else
    let alert : MonitoringAlert :=
      { id := m.nextAlertId, timestamp := now, type := type
        severity := severity, identifier := identifier, source := source
        resolved := false, resolvedAt := none }
    let m := { m with alerts := m.alerts ++ [alert]
                      nextAlertId := m.nextAlertId + 1 }
    let m :=
      if m.config.enableEventEmission then
        { m with emitted := m.emitted ++ [alert] }
      else m
    if m.alerts.length % 100 == 0 then cleanupAlerts m now else m

def isRecentAlert (m : ApiMonitor) (type : MonitoringEventType) (now : Int) :
    Bool :=
  m.alerts.any (fun alert =>
    alert.type == type &&
    decide (now - alert.timestamp < m.config.alertAggregationWindow))

def monitorRateLimit (m : ApiMonitor) (identifier : String)
    (result : RateLimitResult) (now : Int) : ApiMonitor :=
  if !m.config.enabled then m
  else
    let usagePercentage : ℚ :=
      ((result.limit : ℚ) - (result.remaining : ℚ)) / (result.limit : ℚ) * 100
    let m :=
      if m.config.rateLimitWarningThreshold ≤ usagePercentage then
        createAlert m .RATE_LIMIT_WARNING .WARNING (some identifier)
          .rate_limiter now
      else m
    if !result.allowed then
      createAlert m .RATE_LIMIT_EXCEEDED .ERROR (some identifier)
        .rate_limiter now
    else m

/-- The predicate selecting the unresolved OPEN alerts of an identifier
(used both to pick them and to mark them resolved). -/
def isUnresolvedOpenAlert (identifier : String) (a : MonitoringAlert) : Bool :=
  a.type == .CIRCUIT_BREAKER_OPENED && !a.resolved &&
    a.identifier == some identifier

def monitorCircuitBreaker (m : ApiMonitor) (identifier : String)
    (metrics : CircuitBreakerMetricsView) (now : Int) : ApiMonitor :=
  if !m.config.enabled then m
  else
    let failureRate : ℚ :=
      if 0 < metrics.totalRequests then
        (metrics.totalFailures : ℚ) / (metrics.totalRequests : ℚ) * 100
      else 0
    let m :=
      match metrics.state with
      | .OPEN =>
          if !isRecentAlert m .CIRCUIT_BREAKER_OPENED now then
            createAlert m .CIRCUIT_BREAKER_OPENED .CRITICAL (some identifier)
              .circuit_breaker now
          else m
      | .HALF_OPEN =>
          createAlert m .CIRCUIT_BREAKER_HALF_OPEN .WARNING (some identifier)
            .circuit_breaker now
      | .CLOSED =>
          let openAlerts := m.alerts.filter (isUnresolvedOpenAlert identifier)
          if openAlerts.length ≠ 0 then
            let m := createAlert m .CIRCUIT_BREAKER_CLOSED .INFO
              (some identifier) .circuit_breaker now
            { m with alerts := m.alerts.map (fun a =>
                if isUnresolvedOpenAlert identifier a then
                  { a with resolved := true, resolvedAt := some now }
                else a) }
          else m
    if m.config.circuitBreakerFailureThreshold ≤ failureRate ∧
        10 ≤ metrics.totalRequests then
      if !isRecentAlert m .PERFORMANCE_WARNING now then
        createAlert m .PERFORMANCE_WARNING .WARNING (some identifier)
          .circuit_breaker now
      else m
    else m

def monitorApiRequest (m : ApiMonitor) (duration : ℚ) (success : Bool)
    (endpoint : Option String) (now : Int) : ApiMonitor :=
  if !m.config.enabled then m
  else
    let metrics := m.apiMetrics
    let metrics :=
      { metrics with totalRequests := metrics.totalRequests + 1
                     lastRequestTime := some now }
    let metrics :=
      if success then
        { metrics with successfulRequests := metrics.successfulRequests + 1 }
      else
        { metrics with failedRequests := metrics.failedRequests + 1
                       lastErrorTime := some now }
    let requestTimes := m.requestTimes ++ [duration]
    let requestTimes :=
      if 100 < requestTimes.length then requestTimes.tail else requestTimes
    let metrics :=
      { metrics with
        averageResponseTime := requestTimes.sum / (requestTimes.length : ℚ)
        errorRate :=
          (metrics.failedRequests : ℚ) / (metrics.totalRequests : ℚ) * 100 }
    let m := { m with apiMetrics := metrics, requestTimes := requestTimes }
    let m :=
      if m.config.responseTimeThreshold < duration then
        createAlert m .PERFORMANCE_WARNING .WARNING endpoint .api_client now
      else m
    if !success then createAlert m .API_ERROR .ERROR endpoint .api_client now
    else m

/-- Number of stored alerts of a given type. -/
def countType (m : ApiMonitor) (type : MonitoringEventType) : Nat :=
  (m.alerts.filter (fun a => a.type == type)).length

end ApiMonitor

/- ===================================================================
   Concrete instances used by the claims.
   =================================================================== -/

/-- Whether execute admits a request: the answer shouldAllowRequest
gives after the request count bump and the failure-window cleanup. -/
def CircuitBreaker.admits (cb : CircuitBreaker) (now : ℚ) : Bool :=
  (CircuitBreaker.shouldAllowRequest
    (CircuitBreaker.cleanupOldFailures
      { cb with totalRequests := cb.totalRequests + 1 } now) now).1

/-- The circuit-breaker configuration of the backoff scenario. -/
def cfgScenario : CircuitBreakerConfig :=
  { failureThreshold := 1, successThreshold := 2, monitoringPeriod := 1000000,
    timeout := 1000, maxTimeout := 4000, backoffMultiplier := 2,
    resetThreshold := 10 }

/-- An always-failing wrapped operation over a trivial world. -/
def failOpU : Unit → Unit × Except Unit Unit := fun s => (s, Except.error ())

/-- An always-succeeding wrapped operation over a trivial world. -/
def okOpU : Unit → Unit × Except Unit Unit := fun s => (s, Except.ok ())

/-- The scenario breaker after its single failed execute at time 0. -/
def cbAfterFail : CircuitBreaker :=
  (CircuitBreaker.execute (CircuitBreaker.mk0 cfgScenario 0) 0 failOpU ()).2.1

/-- The rate-limiter configuration of the quota scenario. -/
def rlCfgScenario : RateLimitConfig :=
  { maxRequests := 10, periodMs := 60000, windowMs := 10000, burstSize := 1,
    burstWindowMs := 100000 }

/-- The scenario limiter after ten consumed requests at time 0. -/
def rlAfterTen : SlidingWindowRateLimiter :=
  (List.replicate 10 (0 : Int)).foldl
    (fun rl t => (SlidingWindowRateLimiter.checkLimit rl t true).2)
    (SlidingWindowRateLimiter.mk0 rlCfgScenario)

/-- The source's estimateSize instantiated at numeric values:
2 bytes per key character, 8 bytes for the number, 50 bytes overhead. -/
def estimateNum : String → Nat → Nat := fun k _ => k.length * 2 + 8 + 50

/-- A cache with maxSize 3, a long default TTL and the default 50MiB
memory threshold. -/
def cacheLRU3 : LRUCache Nat :=
  LRUCache.mk0 3 300000 52428800 estimateNum

/-- The LRU scenario: insert A, B, C, read A, insert D. -/
def cacheAfterScenario : LRUCache Nat :=
  let c := LRUCache.set cacheLRU3 "A" 1 none 0
  let c := LRUCache.set c "B" 2 none 1
  let c := LRUCache.set c "C" 3 none 2
  let c := (LRUCache.get c "A" 3).2
  LRUCache.set c "D" 4 none 4

/-- A cache constructed with maxSize 0. -/
def cacheZero : LRUCache Nat :=
  LRUCache.mk0 0 300000 52428800 estimateNum

/-- A cache holding one entry stored with ttl 0 (immediately expired). -/
def cacheExpiredEntry : LRUCache Nat :=
  LRUCache.set (LRUCache.mk0 3 300000 52428800 estimateNum) "A" 1 (some 0) 0

/-- Monitor configuration for the de-duplication scenario: defaults,
with the rate-limit warning threshold raised so only the EXCEEDED alert
fires. -/
def monCfgScenario : MonitoringConfig :=
  { ApiMonitor.defaultConfig with rateLimitWarningThreshold := 150 }

/-- A denied rate-limit result (limit 10 exhausted). -/
def deniedResult : RateLimitResult :=
  { allowed := false, remaining := 0, limit := 10, resetTime := 60000,
    windowStart := 0, retryAfter := some 1 }

/-- The monitor after observing the same denied result twice, one
millisecond apart (well within the aggregation window). -/
def monAfterTwo : ApiMonitor :=
  ApiMonitor.monitorRateLimit
    (ApiMonitor.monitorRateLimit (ApiMonitor.mk0 monCfgScenario 0)
      "api" deniedResult 0)
    "api" deniedResult 1

/-- The alert createAlert records when a circuit breaker identified by
cb is observed OPEN at time 0 by a fresh monitor. -/
def openAlertCb : MonitoringAlert :=
  { id := 0
    timestamp := 0
    type := .CIRCUIT_BREAKER_OPENED
    severity := .CRITICAL
    identifier := some "cb"
    source := .circuit_breaker
    resolved := false
    resolvedAt := none }

/-- A monitor that recorded openAlertCb moments ago. -/
def monRecentOpen : ApiMonitor :=
  { config := monCfgScenario
    alerts := [openAlertCb]
    apiMetrics :=
      { totalRequests := 0, successfulRequests := 0, failedRequests := 0
        averageResponseTime := 0, lastRequestTime := none
        lastErrorTime := none, errorRate := 0 }
    startTime := 0
    requestTimes := []
    nextAlertId := 1
    emitted := [] }

/-- A high-failure-rate performance warning recorded at time 0. -/
def perfAlertCb : MonitoringAlert :=
  { id := 0
    timestamp := 0
    type := .PERFORMANCE_WARNING
    severity := .WARNING
    identifier := some "cb"
    source := .circuit_breaker
    resolved := false
    resolvedAt := none }

/-- A monitor that recorded perfAlertCb moments ago. -/
def monRecentPerf : ApiMonitor :=
  { config := monCfgScenario
    alerts := [perfAlertCb]
    apiMetrics :=
      { totalRequests := 0, successfulRequests := 0, failedRequests := 0
        averageResponseTime := 0, lastRequestTime := none
        lastErrorTime := none, errorRate := 0 }
    startTime := 0
    requestTimes := []
    nextAlertId := 1
    emitted := [] }

/- ===================================================================
   Circuit-breaker lemmas.
   =================================================================== -/

namespace CircuitBreaker

theorem onSuccess_not_open (cb : CircuitBreaker) (now : ℚ)
    (h : cb.state ≠ .OPEN) : (onSuccess cb now).state ≠ .OPEN := by
  unfold onSuccess transitionToClosed
  rcases hst : cb.state with _ | _ | _ <;> simp_all <;> split <;> simp

theorem onFailure_entering_open (cb : CircuitBreaker) (now : ℚ)
    (h : cb.state ≠ .OPEN) (ho : (onFailure cb now).state = .OPEN) :
    (onFailure cb now).currentTimeout =
      min (cb.currentTimeout * cb.config.backoffMultiplier)
        cb.config.maxTimeout := by
  unfold onFailure transitionToOpen at *
  rcases hst : cb.state with _ | _ | _ <;> simp_all <;>
    split_ifs at ho ⊢ <;> simp_all

theorem shouldAllowRequest_snd (cb : CircuitBreaker) (now : ℚ)
    (h : cb.state ≠ .OPEN) : (shouldAllowRequest cb now).2 = cb := by
  unfold shouldAllowRequest
  rcases hst : cb.state with _ | _ | _ <;> simp_all

theorem shouldAllowRequest_snd_of_denied (cb : CircuitBreaker) (now : ℚ)
    (h : (shouldAllowRequest cb now).1 = false) :
    (shouldAllowRequest cb now).2 = cb := by
  unfold shouldAllowRequest at *
  rcases hst : cb.state with _ | _ | _
  · simp_all
  · simp only [hst] at h ⊢
    rcases le_or_lt cb.currentTimeout (now - cb.stateChangedAt) with hle | hlt
    · rw [if_pos hle] at h
      simp at h
    · rw [if_neg (not_le.mpr hlt)]
  · simp_all

theorem onFailure_accounting (cb : CircuitBreaker) (now : ℚ) :
    (onFailure cb now).totalFailures = cb.totalFailures + 1 ∧
    (onFailure cb now).failures = cb.failures ++ [now] ∧
    (onFailure cb now).failureCount = cb.failureCount + 1 := by
  unfold onFailure transitionToOpen
  rcases hst : cb.state with _ | _ | _ <;> simp_all <;> split <;> simp

theorem onSuccess_accounting (cb : CircuitBreaker) (now : ℚ) :
    (onSuccess cb now).totalSuccesses = cb.totalSuccesses + 1 := by
  unfold onSuccess transitionToClosed
  rcases hst : cb.state with _ | _ | _ <;> simp_all <;> split <;> simp

theorem shouldAllowRequest_preserves (cb : CircuitBreaker) (now : ℚ) :
    (shouldAllowRequest cb now).2.totalFailures = cb.totalFailures ∧
    (shouldAllowRequest cb now).2.totalSuccesses = cb.totalSuccesses ∧
    (shouldAllowRequest cb now).2.failures = cb.failures ∧
    (shouldAllowRequest cb now).2.failureCount = cb.failureCount ∧
    (shouldAllowRequest cb now).2.config = cb.config := by
  unfold shouldAllowRequest transitionToHalfOpen
  rcases hst : cb.state with _ | _ | _ <;> simp_all <;> split <;> simp

end CircuitBreaker

end RealtimeRegister

namespace RealtimeRegister

theorem cbAfterFail_eq :
    cbAfterFail =
      { config := cfgScenario, state := .OPEN, failureCount := 1,
        successCount := 0, consecutiveSuccesses := 0, totalRequests := 1,
        totalFailures := 1, totalSuccesses := 0, lastFailureTime := some 0,
        lastSuccessTime := none, currentTimeout := 2000, stateChangedAt := 0,
        failures := [0] } := by
  norm_num [cbAfterFail, CircuitBreaker.execute, CircuitBreaker.mk0,
    CircuitBreaker.cleanupOldFailures, CircuitBreaker.shouldAllowRequest,
    CircuitBreaker.onFailure, CircuitBreaker.transitionToOpen, failOpU,
    cfgScenario, min_def]

theorem cb_denied_probe (t : ℚ) (h0 : 0 ≤ t) (h1 : t < 2000) :
    (CircuitBreaker.execute cbAfterFail t failOpU ()).1.allowed = false ∧
    (CircuitBreaker.execute cbAfterFail t failOpU ()).2.1 =
      { cbAfterFail with totalRequests := cbAfterFail.totalRequests + 1 } := by
  rw [cbAfterFail_eq]
  have hcut : t - (1000000 : ℚ) < 0 := by linarith
  have hnot : ¬ ((2000 : ℚ) ≤ t) := by intro h; linarith
  norm_num [CircuitBreaker.execute, CircuitBreaker.cleanupOldFailures,
    CircuitBreaker.shouldAllowRequest, CircuitBreaker.getRetryAfter,
    CircuitBreaker.transitionToHalfOpen, CircuitBreaker.onSuccess,
    CircuitBreaker.onFailure, failOpU, cfgScenario, hcut, hnot]

theorem cb_halfopen_probe (t : ℚ) (h2 : 2000 ≤ t) :
    (CircuitBreaker.execute cbAfterFail t okOpU ()).1.allowed = true ∧
    (CircuitBreaker.execute cbAfterFail t okOpU ()).1.state = .HALF_OPEN := by
  rw [cbAfterFail_eq]
  rcases lt_or_le (t - (1000000 : ℚ)) 0 with hcut | hcut
  · norm_num [CircuitBreaker.execute, CircuitBreaker.cleanupOldFailures,
      CircuitBreaker.shouldAllowRequest, CircuitBreaker.transitionToHalfOpen,
      CircuitBreaker.onSuccess, CircuitBreaker.transitionToClosed, okOpU,
      cfgScenario, hcut, h2]
  · norm_num [CircuitBreaker.execute, CircuitBreaker.cleanupOldFailures,
      CircuitBreaker.shouldAllowRequest, CircuitBreaker.transitionToHalfOpen,
      CircuitBreaker.onSuccess, CircuitBreaker.transitionToClosed, okOpU,
      cfgScenario, not_lt.mpr hcut, h2]

theorem cb_reopen_probe (t : ℚ) (h2 : 2000 ≤ t) :
    (CircuitBreaker.execute cbAfterFail t failOpU ()).1.allowed = true ∧
    (CircuitBreaker.execute cbAfterFail t failOpU ()).2.1.state = .OPEN ∧
    (CircuitBreaker.execute cbAfterFail t failOpU ()).2.1.currentTimeout =
      4000 := by
  rw [cbAfterFail_eq]
  rcases lt_or_le (t - (1000000 : ℚ)) 0 with hcut | hcut
  · norm_num [CircuitBreaker.execute, CircuitBreaker.cleanupOldFailures,
      CircuitBreaker.shouldAllowRequest, CircuitBreaker.transitionToHalfOpen,
      CircuitBreaker.transitionToOpen, CircuitBreaker.onFailure, failOpU,
      cfgScenario, hcut, h2, min_def]
  · norm_num [CircuitBreaker.execute, CircuitBreaker.cleanupOldFailures,
      CircuitBreaker.shouldAllowRequest, CircuitBreaker.transitionToHalfOpen,
      CircuitBreaker.transitionToOpen, CircuitBreaker.onFailure, failOpU,
      cfgScenario, not_lt.mpr hcut, h2, min_def]

theorem execute_entering_open_backoff (S A E : Type) (cb : CircuitBreaker)
    (now : ℚ) (op : S → S × Except E A) (s : S) (hne : cb.state ≠ .OPEN)
    (hopen : (CircuitBreaker.execute cb now op s).2.1.state = .OPEN) :
    (CircuitBreaker.execute cb now op s).2.1.currentTimeout =
      min (cb.currentTimeout * cb.config.backoffMultiplier)
        cb.config.maxTimeout := by
  simp only [CircuitBreaker.execute] at hopen ⊢
  set cb1 := CircuitBreaker.cleanupOldFailures
    { cb with totalRequests := cb.totalRequests + 1 } now with hcb1
  have h1 : cb1.state = cb.state := rfl
  have h2 : cb1.currentTimeout = cb.currentTimeout := rfl
  have h3 : cb1.config = cb.config := rfl
  have hne1 : cb1.state ≠ .OPEN := by rw [h1]; exact hne
  have hsar : (CircuitBreaker.shouldAllowRequest cb1 now).2 = cb1 :=
    CircuitBreaker.shouldAllowRequest_snd cb1 now hne1
  rw [hsar] at hopen ⊢
  by_cases hallow : (CircuitBreaker.shouldAllowRequest cb1 now).1 = true
  · simp only [hallow, if_true] at hopen ⊢
    rcases hop : (op s).2 with e | v
    · simp only [hop] at hopen ⊢
      rw [← h2, ← h3]
      exact CircuitBreaker.onFailure_entering_open cb1 now hne1 hopen
    · simp only [hop] at hopen ⊢
      exact absurd hopen (CircuitBreaker.onSuccess_not_open cb1 now hne1)
  · rw [Bool.not_eq_true] at hallow
    simp only [hallow, Bool.false_eq_true, if_false] at hopen
    exact absurd hopen hne1

/-- Claim C1: with failureThreshold 1, timeout 1000, backoffMultiplier 2
and maxTimeout 4000, one failed execute opens the breaker with
currentTimeout 2000; every execute in the 2000 ms that follow is denied
and changes nothing but the request counter; the first execute at or
after 2000 ms is admitted with the breaker in HALF_OPEN; a failure
there reopens it with currentTimeout 4000 (capped); and in general any
execute that takes a non-OPEN breaker to OPEN sets currentTimeout to
min(currentTimeout * backoffMultiplier, maxTimeout). -/
theorem claim_C1_backoff_scenario :
    (cbAfterFail.state = .OPEN ∧ cbAfterFail.currentTimeout = 2000 ∧
      cbAfterFail.stateChangedAt = 0) ∧
    (∀ t : ℚ, 0 ≤ t → t < 2000 →
      (CircuitBreaker.execute cbAfterFail t failOpU ()).1.allowed = false ∧
      (CircuitBreaker.execute cbAfterFail t failOpU ()).2.1 =
        { cbAfterFail with totalRequests := cbAfterFail.totalRequests + 1 }) ∧
    (∀ t : ℚ, 2000 ≤ t →
      (CircuitBreaker.execute cbAfterFail t okOpU ()).1.allowed = true ∧
      (CircuitBreaker.execute cbAfterFail t okOpU ()).1.state = .HALF_OPEN) ∧
    (∀ t : ℚ, 2000 ≤ t →
      (CircuitBreaker.execute cbAfterFail t failOpU ()).1.allowed = true ∧
      (CircuitBreaker.execute cbAfterFail t failOpU ()).2.1.state = .OPEN ∧
      (CircuitBreaker.execute cbAfterFail t failOpU ()).2.1.currentTimeout =
        4000) ∧
    (∀ (S A E : Type) (cb : CircuitBreaker) (now : ℚ)
        (op : S → S × Except E A) (s : S), cb.state ≠ .OPEN →
      (CircuitBreaker.execute cb now op s).2.1.state = .OPEN →
      (CircuitBreaker.execute cb now op s).2.1.currentTimeout =
        min (cb.currentTimeout * cb.config.backoffMultiplier)
          cb.config.maxTimeout) := by
  refine ⟨⟨?_, ?_, ?_⟩, cb_denied_probe, cb_halfopen_probe, cb_reopen_probe,
    execute_entering_open_backoff⟩ <;> rw [cbAfterFail_eq]

theorem claim_C1_backoff_scenario_witness :
    ((0 : ℚ) ≤ 1000 ∧ (1000 : ℚ) < 2000 ∧ (2000 : ℚ) ≤ 2000) ∧
    (CircuitBreaker.execute cbAfterFail 1000 failOpU ()).1.allowed = false ∧
    (CircuitBreaker.execute cbAfterFail 2000 okOpU ()).1.state = .HALF_OPEN ∧
    (CircuitBreaker.execute cbAfterFail 2000 failOpU ()).2.1.currentTimeout =
      4000 := by
  refine ⟨⟨by norm_num, by norm_num, by norm_num⟩, ?_, ?_, ?_⟩
  · exact (claim_C1_backoff_scenario.2.1 1000 (by norm_num) (by norm_num)).1
  · exact (claim_C1_backoff_scenario.2.2.1 2000 (by norm_num)).2
  · exact (claim_C1_backoff_scenario.2.2.2.1 2000 (by norm_num)).2.2

end RealtimeRegister

namespace RealtimeRegister

/-- Claim C2: the execute contract.  When the request is not admitted,
execute returns the structured denial (allowed false, state, retryAfter
and the current counters) without invoking the operation: the external
world is returned untouched and the result does not depend on the
operation.  When admitted, the operation is applied to the world
exactly once; a failing outcome is captured in the result's error field
(never rethrown) and counted (totalFailures, the failure-timestamp list
and failureCount grow by one), and a successful outcome is returned in
result and counted in totalSuccesses. -/
theorem claim_C2_execute_contract (S A E : Type) (cb : CircuitBreaker)
    (now : ℚ) (op op2 : S → S × Except E A) (s : S) :
    (CircuitBreaker.admits cb now = false →
      (CircuitBreaker.execute cb now op s).2.2 = s ∧
      (CircuitBreaker.execute cb now op s).2.1 =
        CircuitBreaker.cleanupOldFailures
          { cb with totalRequests := cb.totalRequests + 1 } now ∧
      (CircuitBreaker.execute cb now op s).1 =
        { allowed := false, result := none, error := none
          state := cb.state
          retryAfter := some (CircuitBreaker.getRetryAfter
            (CircuitBreaker.cleanupOldFailures
              { cb with totalRequests := cb.totalRequests + 1 } now) now)
          currentFailures := (CircuitBreaker.cleanupOldFailures
            { cb with totalRequests := cb.totalRequests + 1 } now).failureCount
          currentSuccesses := cb.successCount } ∧
      (CircuitBreaker.execute cb now op s).1 =
        (CircuitBreaker.execute cb now op2 s).1) ∧
    (CircuitBreaker.admits cb now = true →
      (CircuitBreaker.execute cb now op s).2.2 = (op s).1 ∧
      (∀ e, (op s).2 = Except.error e →
        (CircuitBreaker.execute cb now op s).1.allowed = true ∧
        (CircuitBreaker.execute cb now op s).1.error = some e ∧
        (CircuitBreaker.execute cb now op s).1.result = none ∧
        (CircuitBreaker.execute cb now op s).2.1.totalFailures =
          cb.totalFailures + 1 ∧
        (CircuitBreaker.execute cb now op s).2.1.failures =
          (CircuitBreaker.cleanupOldFailures
            { cb with totalRequests := cb.totalRequests + 1 } now).failures
            ++ [now] ∧
        (CircuitBreaker.execute cb now op s).2.1.failureCount =
          (CircuitBreaker.cleanupOldFailures
            { cb with totalRequests := cb.totalRequests + 1 } now).failureCount
            + 1) ∧
      (∀ v, (op s).2 = Except.ok v →
        (CircuitBreaker.execute cb now op s).1.allowed = true ∧
        (CircuitBreaker.execute cb now op s).1.result = some v ∧
        (CircuitBreaker.execute cb now op s).1.error = none ∧
        (CircuitBreaker.execute cb now op s).2.1.totalSuccesses =
          cb.totalSuccesses + 1)) := by
  simp only [CircuitBreaker.execute]
  set cb1 := CircuitBreaker.cleanupOldFailures
    { cb with totalRequests := cb.totalRequests + 1 } now with hcb1
  constructor
  · intro hden
    have hden1 : (CircuitBreaker.shouldAllowRequest cb1 now).1 = false := hden
    have hsnd : (CircuitBreaker.shouldAllowRequest cb1 now).2 = cb1 :=
      CircuitBreaker.shouldAllowRequest_snd_of_denied cb1 now hden1
    simp only [hden1, Bool.false_eq_true, if_false, hsnd]
    simp [hcb1, CircuitBreaker.cleanupOldFailures]
  · intro hadm
    have hadm1 : (CircuitBreaker.shouldAllowRequest cb1 now).1 = true := hadm
    simp only [hadm1, if_true]
    have hpres := CircuitBreaker.shouldAllowRequest_preserves cb1 now
    refine ⟨?_, ?_, ?_⟩
    · rcases hop : (op s).2 with e | v <;> simp only [hop]
    · intro e he
      simp only [he]
      have hacc := CircuitBreaker.onFailure_accounting
        (CircuitBreaker.shouldAllowRequest cb1 now).2 now
      rw [hacc.1, hacc.2.1, hacc.2.2, hpres.1, hpres.2.2.1, hpres.2.2.2.1]
      exact ⟨trivial, trivial, trivial, rfl, rfl, rfl⟩
    · intro v hv
      simp only [hv]
      have hacc := CircuitBreaker.onSuccess_accounting
        (CircuitBreaker.shouldAllowRequest cb1 now).2 now
      rw [hacc, hpres.2.1]
      exact ⟨trivial, trivial, trivial, rfl⟩

theorem claim_C2_execute_contract_witness :
    (CircuitBreaker.admits cbAfterFail 2000 = true ∧
      (failOpU ()).2 = Except.error ()) ∧
    (CircuitBreaker.execute cbAfterFail 2000 failOpU ()).1.allowed = true ∧
    (CircuitBreaker.execute cbAfterFail 2000 failOpU ()).1.error = some () ∧
    (CircuitBreaker.execute cbAfterFail 2000 failOpU ()).2.1.totalFailures =
      cbAfterFail.totalFailures + 1 := by
  have hadm : CircuitBreaker.admits cbAfterFail 2000 = true := by
    rw [cbAfterFail_eq]
    norm_num [CircuitBreaker.admits, CircuitBreaker.cleanupOldFailures,
      CircuitBreaker.shouldAllowRequest, cfgScenario]
  have h := (claim_C2_execute_contract Unit Unit Unit cbAfterFail 2000
    failOpU failOpU ()).2 hadm
  have he := h.2.1 () rfl
  exact ⟨⟨hadm, rfl⟩, he.1, he.2.1, he.2.2.2.1⟩

/-- Claim C10: shouldAllowRequest is not side-effect-free.  Called on
an OPEN breaker whose current timeout has elapsed, it transitions the
breaker to HALF_OPEN (resetting the half-open success count and
stateChangedAt to now) and answers true; in every other case it leaves
the breaker unchanged. -/
theorem claim_C10_shouldAllowRequest_effect (cb : CircuitBreaker) (now : ℚ) :
    (cb.state = .OPEN → cb.currentTimeout ≤ now - cb.stateChangedAt →
      (CircuitBreaker.shouldAllowRequest cb now).1 = true ∧
      (CircuitBreaker.shouldAllowRequest cb now).2 =
        { cb with state := .HALF_OPEN, successCount := 0,
                  stateChangedAt := now }) ∧
    (¬ (cb.state = .OPEN ∧ cb.currentTimeout ≤ now - cb.stateChangedAt) →
      (CircuitBreaker.shouldAllowRequest cb now).2 = cb) := by
  constructor
  · intro hst hle
    unfold CircuitBreaker.shouldAllowRequest CircuitBreaker.transitionToHalfOpen
    simp [hst, hle]
  · intro hn
    rcases hst : cb.state with _ | _ | _
    · exact CircuitBreaker.shouldAllowRequest_snd cb now (by simp [hst])
    · have hlt : now - cb.stateChangedAt < cb.currentTimeout := by
        by_contra hc
        push_neg at hc
        exact hn ⟨hst, hc⟩
      unfold CircuitBreaker.shouldAllowRequest
      simp [hst, not_le.mpr hlt]
    · exact CircuitBreaker.shouldAllowRequest_snd cb now (by simp [hst])

theorem claim_C10_shouldAllowRequest_effect_witness :
    (cbAfterFail.state = .OPEN ∧
      cbAfterFail.currentTimeout ≤ 2500 - cbAfterFail.stateChangedAt) ∧
    (CircuitBreaker.shouldAllowRequest cbAfterFail 2500).1 = true ∧
    (CircuitBreaker.shouldAllowRequest cbAfterFail 2500).2 =
      { cbAfterFail with state := .HALF_OPEN, successCount := 0,
                         stateChangedAt := 2500 } := by
  have h1 : cbAfterFail.state = .OPEN := by rw [cbAfterFail_eq]
  have h2 : cbAfterFail.currentTimeout ≤ 2500 - cbAfterFail.stateChangedAt := by
    rw [cbAfterFail_eq]
    norm_num
  exact ⟨⟨h1, h2⟩,
    (claim_C10_shouldAllowRequest_effect cbAfterFail 2500).1 h1 h2⟩

end RealtimeRegister

namespace RealtimeRegister.LRUCache

variable {α : Type}

theorem sumSizes_eq_sizesOf (c : LRUCache α) :
    sumSizes c = sizesOf c.estimate c.entries := rfl

theorem entriesDelete_length_le (l : List (String × CacheEntry α))
    (k : String) : (entriesDelete l k).length ≤ l.length := by
  induction l with
  | nil => simp [entriesDelete]
  | cons p rest ih =>
      unfold entriesDelete
      split
      · simp
      · simpa using Nat.succ_le_succ ih

theorem entriesGet_some_length (l : List (String × CacheEntry α)) (k : String)
    (e : CacheEntry α) (h : entriesGet l k = some e) :
    l.length = (entriesDelete l k).length + 1 := by
  induction l with
  | nil => simp [entriesGet] at h
  | cons p rest ih =>
      unfold entriesGet at h
      unfold entriesDelete
      rcases hpk : (p.1 == k) with _ | _
      · simp only [List.find?] at h
        rw [hpk] at h
        simp only [Bool.false_eq_true, if_false]
        simpa using ih (by simpa [entriesGet] using h)
      · simp

theorem entriesSet_length_le (l : List (String × CacheEntry α)) (k : String)
    (e : CacheEntry α) : (entriesSet l k e).length ≤ l.length + 1 := by
  induction l with
  | nil => simp [entriesSet]
  | cons p rest ih =>
      unfold entriesSet
      split
      · simp
      · simpa using Nat.succ_le_succ ih

theorem evictLRU_length_le (c : LRUCache α) :
    (evictLRU c).entries.length ≤ c.entries.length := by
  unfold evictLRU
  split <;> simp_all [memDelete]

theorem evictLRU_length_cons (c : LRUCache α) (p : String × CacheEntry α)
    (rest : List (String × CacheEntry α)) (h : c.entries = p :: rest) :
    (evictLRU c).entries.length + 1 = c.entries.length := by
  unfold evictLRU
  rw [h]
  simp [memDelete]

theorem evictLRU_maxSize (c : LRUCache α) :
    (evictLRU c).maxSize = c.maxSize := by
  unfold evictLRU
  split <;> simp [memDelete]

theorem memoryEvictLoop_length_le (c : LRUCache α) :
    (memoryEvictLoop c).entries.length ≤ c.entries.length := by
  suffices H : ∀ (n : Nat) (c : LRUCache α), c.entries.length ≤ n →
      (memoryEvictLoop c).entries.length ≤ c.entries.length by
    exact H c.entries.length c le_rfl
  intro n
  induction n with
  | zero =>
      intro c hc
      rw [memoryEvictLoop]
      split
      · split
        · exact le_rfl
        · rename_i hl
          rw [hl] at hc
          simp at hc
      · exact le_rfl
  | succ n ih =>
      intro c hc
      rw [memoryEvictLoop]
      split
      · split
        · exact le_rfl
        · rename_i p rest hl
          have h1 := evictLRU_length_cons c p rest hl
          have h2 := ih (evictLRU c) (by omega)
          omega
      · exact le_rfl

theorem memoryEvictLoop_maxSize (c : LRUCache α) :
    (memoryEvictLoop c).maxSize = c.maxSize := by
  suffices H : ∀ (n : Nat) (c : LRUCache α), c.entries.length ≤ n →
      (memoryEvictLoop c).maxSize = c.maxSize by
    exact H c.entries.length c le_rfl
  intro n
  induction n with
  | zero =>
      intro c hc
      rw [memoryEvictLoop]
      split
      · split
        · rfl
        · rename_i hl
          rw [hl] at hc
          simp at hc
      · rfl
  | succ n ih =>
      intro c hc
      rw [memoryEvictLoop]
      split
      · split
        · rfl
        · rename_i p rest hl
          have h1 := evictLRU_length_cons c p rest hl
          rw [ih (evictLRU c) (by omega), evictLRU_maxSize]
      · rfl

theorem cleanup_entries (c : LRUCache α) (now : Int) :
    (cleanup c now).2.entries =
      c.entries.filter (fun p => !isExpired p.2 now) := by
  simp only [cleanup]
  split <;> rfl

theorem cleanup_maxSize (c : LRUCache α) (now : Int) :
    (cleanup c now).2.maxSize = c.maxSize := by
  simp only [cleanup]
  split <;> rfl

theorem performMemoryCleanup_maxSize (c : LRUCache α) (now : Int) :
    (performMemoryCleanup c now).maxSize = c.maxSize := by
  simp only [performMemoryCleanup]
  rw [memoryEvictLoop_maxSize]
  exact cleanup_maxSize c now

theorem performMemoryCleanup_length_le (c : LRUCache α) (now : Int) :
    (performMemoryCleanup c now).entries.length ≤ c.entries.length := by
  simp only [performMemoryCleanup]
  calc (memoryEvictLoop { (cleanup c now).2 with
          cleanups := (cleanup c now).2.cleanups + 1 }).entries.length
      ≤ (cleanup c now).2.entries.length := memoryEvictLoop_length_le _
    _ ≤ c.entries.length := by
        rw [cleanup_entries]
        exact List.length_filter_le _ _

theorem set_maxSize (c : LRUCache α) (k : String) (v : α) (ttl : Option Int)
    (now : Int) : (set c k v ttl now).maxSize = c.maxSize := by
  cases hg : entriesGet c.entries k with
  | some ex =>
      simp only [set, hg]
      split
      · rw [performMemoryCleanup_maxSize]
        simp [memAdd, memDelete]
      · simp [memAdd, memDelete]
  | none =>
      by_cases hcap : c.maxSize ≤ c.entries.length
      · simp only [set, hg, if_pos hcap]
        split
        · rw [performMemoryCleanup_maxSize]
          simp [memAdd, evictLRU_maxSize]
        · simp [memAdd, evictLRU_maxSize]
      · simp only [set, hg, if_neg hcap]
        split
        · rw [performMemoryCleanup_maxSize]
          simp [memAdd]
        · simp [memAdd]

theorem set_length_le (c : LRUCache α) (k : String) (v : α) (ttl : Option Int)
    (now : Int) (hmax : 1 ≤ c.maxSize) (hlen : c.entries.length ≤ c.maxSize) :
    (set c k v ttl now).entries.length ≤ c.maxSize := by
  cases hg : entriesGet c.entries k with
  | some ex =>
      have hdel := entriesGet_some_length c.entries k ex hg
      have hset := entriesSet_length_le (entriesDelete c.entries k) k
        { value := v, timestamp := now, ttl := ttl.getD c.defaultTTL
          size := some (c.estimate k v) }
      simp only [set, hg]
      split
      · calc (performMemoryCleanup _ now).entries.length
            ≤ _ := performMemoryCleanup_length_le _ now
          _ ≤ c.maxSize := by
              simp only [memAdd, memDelete]
              omega
      · simp only [memAdd, memDelete]
        omega
  | none =>
      by_cases hcap : c.maxSize ≤ c.entries.length
      · have hev : (evictLRU c).entries.length + 1 = c.entries.length := by
          rcases he : c.entries with _ | ⟨p, rest⟩
          · rw [he] at hcap
            simp at hcap
            omega
          · have hevc := evictLRU_length_cons c p rest he
            rw [he] at hevc
            exact hevc
        have hset := entriesSet_length_le (evictLRU c).entries k
          { value := v, timestamp := now, ttl := ttl.getD c.defaultTTL
            size := some (c.estimate k v) }
        simp only [set, hg, if_pos hcap]
        split
        · calc (performMemoryCleanup _ now).entries.length
              ≤ _ := performMemoryCleanup_length_le _ now
            _ ≤ c.maxSize := by
                simp only [memAdd]
                omega
        · simp only [memAdd]
          omega
      · have hset := entriesSet_length_le c.entries k
          { value := v, timestamp := now, ttl := ttl.getD c.defaultTTL
            size := some (c.estimate k v) }
        push_neg at hcap
        simp only [set, hg, if_neg (by omega : ¬ c.maxSize ≤ c.entries.length)]
        split
        · calc (performMemoryCleanup _ now).entries.length
              ≤ _ := performMemoryCleanup_length_le _ now
            _ ≤ c.maxSize := by
                simp only [memAdd]
                omega
        · simp only [memAdd]
          omega

theorem get_maxSize (c : LRUCache α) (k : String) (now : Int) :
    (get c k now).2.maxSize = c.maxSize := by
  cases hg : entriesGet c.entries k with
  | some ex => simp only [get, hg]; split <;> simp [memDelete]
  | none => simp [get, hg]

theorem get_length_le (c : LRUCache α) (k : String) (now : Int) :
    (get c k now).2.entries.length ≤ c.entries.length := by
  cases hg : entriesGet c.entries k with
  | some ex =>
      have hdel := entriesGet_some_length c.entries k ex hg
      have hset := entriesSet_length_le (entriesDelete c.entries k) k ex
      simp only [get, hg]
      split
      · simp only [memDelete]
        have := entriesDelete_length_le c.entries k
        simpa using this
      · simp only []
        omega
  | none => simp [get, hg]

theorem has_maxSize (c : LRUCache α) (k : String) (now : Int) :
    (has c k now).2.maxSize = c.maxSize := by
  cases hg : entriesGet c.entries k with
  | some ex => simp only [has, hg]; split <;> rfl
  | none => simp [has, hg]

theorem has_length_le (c : LRUCache α) (k : String) (now : Int) :
    (has c k now).2.entries.length ≤ c.entries.length := by
  cases hg : entriesGet c.entries k with
  | some ex =>
      simp only [has, hg]
      split
      · simpa using entriesDelete_length_le c.entries k
      · simp
  | none => simp [has, hg]

theorem deleteKey_maxSize (c : LRUCache α) (k : String) :
    (deleteKey c k).2.maxSize = c.maxSize := by
  cases hg : entriesGet c.entries k with
  | some ex => simp [deleteKey, hg, memDelete]
  | none => simp [deleteKey, hg]

theorem deleteKey_length_le (c : LRUCache α) (k : String) :
    (deleteKey c k).2.entries.length ≤ c.entries.length := by
  cases hg : entriesGet c.entries k with
  | some ex =>
      simp only [deleteKey, hg, memDelete]
      simpa using entriesDelete_length_le c.entries k
  | none => simp [deleteKey, hg]

theorem applyOp_size_inv (c : LRUCache α) (op : CacheOp α)
    (hmax : 1 ≤ c.maxSize) (hlen : c.entries.length ≤ c.maxSize) :
    (applyOp c op).maxSize = c.maxSize ∧
    (applyOp c op).entries.length ≤ c.maxSize := by
  rcases op with ⟨k, v, ttl, now⟩ | ⟨k, now⟩ | ⟨k, now⟩ | k | _ | now
  · exact ⟨set_maxSize c k v ttl now, set_length_le c k v ttl now hmax hlen⟩
  · exact ⟨get_maxSize c k now, le_trans (get_length_le c k now) hlen⟩
  · exact ⟨has_maxSize c k now, le_trans (has_length_le c k now) hlen⟩
  · exact ⟨deleteKey_maxSize c k, le_trans (deleteKey_length_le c k) hlen⟩
  · exact ⟨rfl, by simp [applyOp, clear]⟩
  · refine ⟨cleanup_maxSize c now, ?_⟩
    have : (cleanup c now).2.entries.length ≤ c.entries.length := by
      rw [cleanup_entries]
      exact List.length_filter_le _ _
    exact le_trans this hlen

/-- Claim C5 (amended): with maxSize at least 1, the cache never holds
more than maxSize entries across any sequence of operations. -/
theorem claim_C5_size_invariant_amended (α : Type) (M : Nat) (hM : 1 ≤ M)
    (dTTL : Int) (thr : Nat) (est : String → α → Nat)
    (ops : List (CacheOp α)) :
    LRUCache.size (ops.foldl applyOp (mk0 M dTTL thr est)) ≤ M := by
  suffices H : ∀ (ops : List (CacheOp α)) (c : LRUCache α), 1 ≤ c.maxSize →
      c.entries.length ≤ c.maxSize →
      (ops.foldl applyOp c).entries.length ≤ c.maxSize ∧
      (ops.foldl applyOp c).maxSize = c.maxSize by
    have h := H ops (mk0 M dTTL thr est) (by simpa [mk0] using hM)
      (by simp [mk0])
    simpa [LRUCache.size, mk0] using h.1
  intro ops
  induction ops with
  | nil => exact fun c h1 h2 => ⟨h2, rfl⟩
  | cons op rest ih =>
      intro c h1 h2
      have h := applyOp_size_inv c op h1 h2
      have hrec := ih (applyOp c op) (by rw [h.1]; exact h1)
        (by rw [h.1]; exact h.2)
      simp only [List.foldl_cons]
      rw [h.1] at hrec
      exact hrec

/-- Claim C5 counterexample: with maxSize 0, a single set leaves one
entry in the cache, so size exceeds maxSize. -/
theorem claim_C5_size_counterexample :
    cacheZero.maxSize = 0 ∧
    LRUCache.size (LRUCache.set cacheZero "A" 1 none 0) = 1 := by
  constructor <;> rfl

theorem claim_C5_size_invariant_amended_witness :
    1 ≤ 3 ∧
    LRUCache.size
      ((([CacheOp.setOp "A" 1 none 0, CacheOp.setOp "B" 2 none 1] :
        List (CacheOp Nat)).foldl applyOp
          (mk0 3 300000 52428800 estimateNum))) ≤ 3 :=
  ⟨by norm_num,
    claim_C5_size_invariant_amended Nat 3 (by norm_num) 300000 52428800
      estimateNum [CacheOp.setOp "A" 1 none 0, CacheOp.setOp "B" 2 none 1]⟩

theorem isExpired_false_iff (e : CacheEntry α) (now : Int) :
    isExpired e now = false ↔ 0 < e.ttl ∧ now - e.timestamp ≤ e.ttl := by
  simp [isExpired]

/-- Claim C6: an entry is returned by get (or acknowledged by has) only
when its TTL is positive and unexpired; an entry stored with ttl at or
below zero is never retrievable. -/
theorem claim_C6_ttl_invariant (α : Type) (c : LRUCache α) (k : String)
    (now : Int) :
    (∀ v, (get c k now).1 = some v →
      ∃ e, entriesGet c.entries k = some e ∧ e.value = v ∧ 0 < e.ttl ∧
        now - e.timestamp ≤ e.ttl) ∧
    ((has c k now).1 = true →
      ∃ e, entriesGet c.entries k = some e ∧ 0 < e.ttl ∧
        now - e.timestamp ≤ e.ttl) ∧
    (∀ e, entriesGet c.entries k = some e → e.ttl ≤ 0 →
      (get c k now).1 = none ∧ (has c k now).1 = false) := by
  refine ⟨?_, ?_, ?_⟩
  · intro v hv
    cases hg : entriesGet c.entries k with
    | none => simp [get, hg] at hv
    | some e =>
        rcases hex : isExpired e now with _ | _
        · refine ⟨e, rfl, ?_, ((isExpired_false_iff e now).mp hex).1,
            ((isExpired_false_iff e now).mp hex).2⟩
          simp only [get, hg, hex, Bool.false_eq_true, if_false] at hv
          simpa [eq_comm] using hv
        · simp [get, hg, hex] at hv
  · intro hv
    cases hg : entriesGet c.entries k with
    | none => simp [has, hg] at hv
    | some e =>
        rcases hex : isExpired e now with _ | _
        · exact ⟨e, rfl, ((isExpired_false_iff e now).mp hex).1,
            ((isExpired_false_iff e now).mp hex).2⟩
        · simp [has, hg, hex] at hv
  · intro e hg httl
    have hex : isExpired e now = true := by
      simp [isExpired]
      omega
    constructor
    · simp [get, hg, hex]
    · simp [has, hg, hex]

theorem claim_C6_ttl_invariant_witness :
    (entriesGet cacheExpiredEntry.entries "A" =
      some { value := 1, timestamp := 0, ttl := 0, size := some 60 } ∧
      (0 : Int) ≤ 0) ∧
    (get cacheExpiredEntry "A" 5).1 = none ∧
    (has cacheExpiredEntry "A" 5).1 = false := by
  have hg : entriesGet cacheExpiredEntry.entries "A" =
      some { value := 1, timestamp := 0, ttl := 0, size := some 60 } := rfl
  have h := (claim_C6_ttl_invariant Nat cacheExpiredEntry "A" 5).2.2
    { value := 1, timestamp := 0, ttl := 0, size := some 60 } hg (by norm_num)
  exact ⟨⟨hg, le_refl 0⟩, h.1, h.2⟩

theorem entriesDelete_of_not_mem (l : List (String × CacheEntry α))
    (k : String) (h : k ∉ l.map Prod.fst) : entriesDelete l k = l := by
  induction l with
  | nil => rfl
  | cons p rest ih =>
      simp only [List.map_cons, List.mem_cons] at h
      push_neg at h
      unfold entriesDelete
      rcases hpk : (p.1 == k) with _ | _
      · rw [if_neg (by simp [hpk])]
        rw [ih h.2]
      · have hp : p.1 = k := by simpa using hpk
        exact absurd hp.symm h.1

theorem nodup_not_mem_entriesDelete (l : List (String × CacheEntry α))
    (k : String) (hnd : (l.map Prod.fst).Nodup) :
    k ∉ (entriesDelete l k).map Prod.fst := by
  induction l with
  | nil => simp [entriesDelete]
  | cons p rest ih =>
      simp only [List.map_cons, List.nodup_cons] at hnd
      unfold entriesDelete
      rcases hpk : (p.1 == k) with _ | _
      · rw [if_neg (by simp [hpk])]
        simp only [List.map_cons, List.mem_cons]
        push_neg
        refine ⟨?_, ih hnd.2⟩
        intro hk
        rw [hk] at hpk
        simp at hpk
      · rw [if_pos rfl]
        have hp : p.1 = k := by simpa using hpk
        rw [← hp]
        exact hnd.1

theorem entriesSet_of_not_mem (l : List (String × CacheEntry α)) (k : String)
    (e : CacheEntry α) (h : k ∉ l.map Prod.fst) :
    entriesSet l k e = l ++ [(k, e)] := by
  induction l with
  | nil => rfl
  | cons p rest ih =>
      simp only [List.map_cons, List.mem_cons] at h
      push_neg at h
      unfold entriesSet
      rcases hpk : (p.1 == k) with _ | _
      · rw [if_neg (by simp [hpk])]
        rw [ih h.2]
        simp
      · have hp : p.1 = k := by simpa using hpk
        exact absurd hp.symm h.1

/-- Claim C3: the maxSize-3 scenario (insert A, B, C; get A; insert D
evicts B, leaving C, A, D) and the general recency guarantee: after a
successful get of a key in a duplicate-free cache still holding at
least one other entry, the next LRU eviction removes a different key,
so the read key survives. -/
theorem claim_C3_lru_recency :
    ((LRUCache.get (LRUCache.set (LRUCache.set (LRUCache.set cacheLRU3
        "A" 1 none 0) "B" 2 none 1) "C" 3 none 2) "A" 3).1 = some 1) ∧
    cacheAfterScenario.entries.map Prod.fst = ["C", "A", "D"] ∧
    (∀ (α : Type) (c : LRUCache α) (k : String) (now : Int) (v : α),
      (c.entries.map Prod.fst).Nodup →
      (get c k now).1 = some v →
      2 ≤ (get c k now).2.entries.length →
      k ∈ (evictLRU (get c k now).2).entries.map Prod.fst ∧
      (evictLRU (get c k now).2).entries.length + 1 =
        (get c k now).2.entries.length) := by
  refine ⟨by decide, by decide, ?_⟩
  intro α c k now v hnd hv hlen
  cases hg : entriesGet c.entries k with
  | none => simp [get, hg] at hv
  | some e =>
      rcases hex : isExpired e now with _ | _
      · have hkeys : k ∉ (entriesDelete c.entries k).map Prod.fst :=
          nodup_not_mem_entriesDelete c.entries k hnd
        have hent : (get c k now).2.entries =
            entriesDelete c.entries k ++ [(k, e)] := by
          simp only [get, hg, hex, Bool.false_eq_true, if_false]
          exact entriesSet_of_not_mem _ _ _ hkeys
        rcases hdel : entriesDelete c.entries k with _ | ⟨p, rest⟩
        · rw [hent, hdel] at hlen
          simp at hlen
        · obtain ⟨pk, pe⟩ := p
          have hcons : (get c k now).2.entries =
              (pk, pe) :: (rest ++ [(k, e)]) := by
            rw [hent, hdel]
            simp
          have hev : (evictLRU (get c k now).2).entries =
              rest ++ [(k, e)] := by
            unfold evictLRU
            rw [hcons]
            simp [memDelete]
          constructor
          · rw [hev]
            simp
          · rw [hev, hcons]
            simp
      · simp [get, hg, hex] at hv

theorem claim_C3_lru_recency_witness :
    (((LRUCache.set (LRUCache.set (LRUCache.set cacheLRU3 "A" 1 none 0)
        "B" 2 none 1) "C" 3 none 2).entries.map Prod.fst).Nodup ∧
      (get (LRUCache.set (LRUCache.set (LRUCache.set cacheLRU3 "A" 1 none 0)
        "B" 2 none 1) "C" 3 none 2) "A" 3).1 = some 1 ∧
      2 ≤ (get (LRUCache.set (LRUCache.set (LRUCache.set cacheLRU3
        "A" 1 none 0) "B" 2 none 1) "C" 3 none 2) "A" 3).2.entries.length) ∧
    "A" ∈ (evictLRU (get (LRUCache.set (LRUCache.set (LRUCache.set cacheLRU3
        "A" 1 none 0) "B" 2 none 1) "C" 3 none 2) "A" 3).2).entries.map
        Prod.fst := by
  refine ⟨⟨by decide, by decide, by decide⟩, ?_⟩
  exact (claim_C3_lru_recency.2.2 Nat
    (LRUCache.set (LRUCache.set (LRUCache.set cacheLRU3 "A" 1 none 0)
      "B" 2 none 1) "C" 3 none 2) "A" 3 1 (by decide) (by decide)
    (by decide)).1

theorem entriesGet_some_sizes (l : List (String × CacheEntry α))
    (k : String) (e : CacheEntry α) (est : String → α → Nat)
    (h : entriesGet l k = some e) :
    sizesOf est (entriesDelete l k) + pairSize est (k, e) =
      sizesOf est l := by
  induction l with
  | nil => simp [entriesGet] at h
  | cons p rest ih =>
      unfold entriesGet at h
      unfold entriesDelete
      rcases hpk : (p.1 == k) with _ | _
      · simp only [List.find?] at h
        rw [hpk] at h
        rw [if_neg (by simp [hpk])]
        have := ih (by simpa [entriesGet] using h)
        simp only [sizesOf, List.map_cons, List.sum_cons] at *
        omega
      · rw [if_pos rfl]
        simp only [List.find?] at h
        rw [hpk] at h
        simp only [Option.map_some] at h
        have hp : p.1 = k := by simpa using hpk
        have he : p.2 = e := by simpa using h
        simp only [sizesOf, List.map_cons, List.sum_cons, pairSize,
          ← hp, ← he]
        omega

theorem entriesGet_none_not_mem (l : List (String × CacheEntry α))
    (k : String) (h : entriesGet l k = none) : k ∉ l.map Prod.fst := by
  induction l with
  | nil => simp
  | cons p rest ih =>
      unfold entriesGet at h
      simp only [List.find?] at h
      rcases hpk : (p.1 == k) with _ | _
      · rw [hpk] at h
        simp only [List.map_cons, List.mem_cons]
        push_neg
        refine ⟨?_, ih (by simpa [entriesGet] using h)⟩
        intro hk
        rw [hk] at hpk
        simp at hpk
      · rw [hpk] at h
        simp at h

theorem sizesOf_append (est : String → α → Nat)
    (l1 l2 : List (String × CacheEntry α)) :
    sizesOf est (l1 ++ l2) = sizesOf est l1 + sizesOf est l2 := by
  simp [sizesOf]

theorem sizesOf_filter_partition (est : String → α → Nat)
    (l : List (String × CacheEntry α)) (P : String × CacheEntry α → Bool) :
    sizesOf est (l.filter P) + sizesOf est (l.filter (fun p => !P p)) =
      sizesOf est l := by
  induction l with
  | nil => simp [sizesOf]
  | cons p rest ih =>
      rcases hp : P p with _ | _ <;>
        simp_all [sizesOf, List.filter_cons, hp] <;> omega

theorem foldl_sub_sizes (est : String → α → Nat)
    (l : List (String × CacheEntry α)) (m : Nat)
    (g : String × CacheEntry α → Nat) :
    l.foldl (fun m p => m - g p) m = m - (l.map g).sum := by
  induction l generalizing m with
  | nil => simp
  | cons p rest ih =>
      simp only [List.foldl_cons, List.map_cons, List.sum_cons]
      rw [ih]
      omega

theorem keys_entriesDelete_sublist (l : List (String × CacheEntry α))
    (k : String) :
    ((entriesDelete l k).map Prod.fst).Sublist (l.map Prod.fst) := by
  induction l with
  | nil => simp [entriesDelete]
  | cons p rest ih =>
      unfold entriesDelete
      rcases hpk : (p.1 == k) with _ | _
      · rw [if_neg (by simp [hpk])]
        simpa using List.Sublist.cons₂ p.1 ih
      · rw [if_pos rfl]
        simpa using List.sublist_cons_self p.1 (rest.map Prod.fst)

theorem memInv_iff (c : LRUCache α) :
    MemInv c ↔ c.currentMemoryUsage = sizesOf c.estimate c.entries :=
  Iff.rfl

theorem pairSize_entrySize (c : LRUCache α) (k : String) (e : CacheEntry α) :
    pairSize c.estimate (k, e) = entrySize c k e := rfl

theorem evictLRU_meminv (c : LRUCache α) (h : MemInv c) :
    MemInv (evictLRU c) := by
  rw [memInv_iff] at *
  rcases hent : c.entries with _ | ⟨⟨pk, pe⟩, rest⟩
  · unfold evictLRU
    rw [hent]
    simpa [hent] using h
  · unfold evictLRU
    rw [hent]
    rw [hent] at h
    simp only [memDelete, entrySize, sizesOf, pairSize, List.map_cons,
      List.sum_cons] at h ⊢
    omega

theorem memoryEvictLoop_meminv (c : LRUCache α) (h : MemInv c) :
    MemInv (memoryEvictLoop c) := by
  suffices H : ∀ (n : Nat) (c : LRUCache α), c.entries.length ≤ n →
      MemInv c → MemInv (memoryEvictLoop c) from
    H c.entries.length c le_rfl h
  intro n
  induction n with
  | zero =>
      intro c hc h
      rw [memoryEvictLoop]
      split
      · split
        · exact h
        · rename_i hl
          rw [hl] at hc
          simp at hc
      · exact h
  | succ n ih =>
      intro c hc h
      rw [memoryEvictLoop]
      split
      · split
        · exact h
        · rename_i p rest hl
          have h1 := evictLRU_length_cons c p rest hl
          exact ih (evictLRU c) (by omega) (evictLRU_meminv c h)
      · exact h

theorem cleanup_mem_eq (c : LRUCache α) (now : Int) :
    (cleanup c now).2.currentMemoryUsage =
      c.currentMemoryUsage -
        sizesOf c.estimate (c.entries.filter (fun p => isExpired p.2 now)) := by
  simp only [cleanup]
  split <;>
  · simp only []
    rw [foldl_sub_sizes c.estimate _ _ (fun p => entrySize c p.1 p.2)]
    rfl

theorem cleanup_estimate (c : LRUCache α) (now : Int) :
    (cleanup c now).2.estimate = c.estimate := by
  simp only [cleanup]
  split <;> rfl

theorem cleanup_meminv (c : LRUCache α) (now : Int) (h : MemInv c) :
    MemInv (cleanup c now).2 := by
  rw [memInv_iff] at *
  rw [cleanup_mem_eq, cleanup_entries, cleanup_estimate, h]
  have hpart := sizesOf_filter_partition c.estimate c.entries
    (fun p => isExpired p.2 now)
  simp only [] at hpart
  omega

theorem performMemoryCleanup_meminv (c : LRUCache α) (now : Int)
    (h : MemInv c) : MemInv (performMemoryCleanup c now) := by
  unfold performMemoryCleanup
  apply memoryEvictLoop_meminv
  have := cleanup_meminv c now h
  rw [memInv_iff] at *
  exact this

theorem sizesOf_singleton (est : String → α → Nat) (k : String)
    (e : CacheEntry α) : sizesOf est [(k, e)] = pairSize est (k, e) := by
  simp [sizesOf]

theorem get_meminv (c : LRUCache α) (k : String) (now : Int)
    (hnd : (c.entries.map Prod.fst).Nodup) (h : MemInv c) :
    MemInv (get c k now).2 := by
  rw [memInv_iff] at *
  cases hg : entriesGet c.entries k with
  | none => simp [get, hg, h]
  | some e =>
      have hsz := entriesGet_some_sizes c.entries k e c.estimate hg
      rcases hex : isExpired e now with _ | _
      · have hkeys : k ∉ (entriesDelete c.entries k).map Prod.fst :=
          nodup_not_mem_entriesDelete c.entries k hnd
        have hset := entriesSet_of_not_mem (entriesDelete c.entries k) k e
          hkeys
        simp only [get, hg, hex, Bool.false_eq_true, if_false]
        rw [hset, sizesOf_append, sizesOf_singleton]
        omega
      · simp only [get, hg, hex, if_true, memDelete, entrySize]
        simp only [pairSize] at hsz
        omega

theorem setStep_meminv (c : LRUCache α) (k : String) (ne : CacheEntry α)
    (hkeys : k ∉ c.entries.map Prod.fst) (h : MemInv c) :
    MemInv (memAdd { c with entries := entriesSet c.entries k ne } k ne) := by
  rw [memInv_iff] at h ⊢
  simp only [memAdd, entrySize]
  rw [entriesSet_of_not_mem c.entries k ne hkeys, sizesOf_append,
    sizesOf_singleton]
  simp only [pairSize]
  omega

theorem set_meminv (c : LRUCache α) (k : String) (v : α) (ttl : Option Int)
    (now : Int) (hnd : (c.entries.map Prod.fst).Nodup) (h : MemInv c) :
    MemInv (set c k v ttl now) := by
  cases hg : entriesGet c.entries k with
  | some ex =>
      have hsz := entriesGet_some_sizes c.entries k ex c.estimate hg
      have h1 : MemInv (memDelete
          { c with entries := entriesDelete c.entries k } k ex) := by
        rw [memInv_iff] at h ⊢
        simp only [memDelete, entrySize]
        simp only [pairSize] at hsz
        omega
      have hkeys : k ∉ (entriesDelete c.entries k).map Prod.fst :=
        nodup_not_mem_entriesDelete c.entries k hnd
      have hmain := setStep_meminv
        (memDelete { c with entries := entriesDelete c.entries k } k ex) k
        ({ value := v, timestamp := now, ttl := ttl.getD c.defaultTTL
           size := some (c.estimate k v) }) hkeys h1
      simp only [set, hg]
      split
      · exact performMemoryCleanup_meminv _ now hmain
      · exact hmain
  | none =>
      have hk0 : k ∉ c.entries.map Prod.fst :=
        entriesGet_none_not_mem c.entries k hg
      by_cases hcap : c.maxSize ≤ c.entries.length
      · have hkev : k ∉ (evictLRU c).entries.map Prod.fst := by
          intro hmem
          apply hk0
          rcases hent : c.entries with _ | ⟨⟨pk, pe⟩, rest⟩
          · unfold evictLRU at hmem
            rw [hent] at hmem
            simpa [hent] using hmem
          · unfold evictLRU at hmem
            rw [hent] at hmem
            simp only [memDelete] at hmem
            simp only [List.map_cons, List.mem_cons]
            right
            simpa using hmem
        have hmain := setStep_meminv (evictLRU c) k
          ({ value := v, timestamp := now, ttl := ttl.getD c.defaultTTL
             size := some (c.estimate k v) }) hkev (evictLRU_meminv c h)
        simp only [set, hg, if_pos hcap]
        split
        · exact performMemoryCleanup_meminv _ now hmain
        · exact hmain
      · have hmain := setStep_meminv c k
          ({ value := v, timestamp := now, ttl := ttl.getD c.defaultTTL
             size := some (c.estimate k v) }) hk0 h
        simp only [set, hg, if_neg hcap]
        split
        · exact performMemoryCleanup_meminv _ now hmain
        · exact hmain

theorem deleteKey_meminv (c : LRUCache α) (k : String) (h : MemInv c) :
    MemInv (deleteKey c k).2 := by
  rw [memInv_iff] at *
  cases hg : entriesGet c.entries k with
  | none => simp [deleteKey, hg, h]
  | some e =>
      have hsz := entriesGet_some_sizes c.entries k e c.estimate hg
      simp only [deleteKey, hg, memDelete, entrySize]
      simp only [pairSize] at hsz
      omega

theorem clear_meminv (c : LRUCache α) : MemInv (clear c) := by
  rw [memInv_iff]
  simp [clear, sizesOf]

theorem nodup_keys_append_single (keys : List String) (k : String)
    (hnd : keys.Nodup) (hk : k ∉ keys) : (keys ++ [k]).Nodup := by
  simp [List.nodup_append, hnd, hk]

theorem evictLRU_nodup (c : LRUCache α)
    (hnd : (c.entries.map Prod.fst).Nodup) :
    ((evictLRU c).entries.map Prod.fst).Nodup := by
  rcases hent : c.entries with _ | ⟨⟨pk, pe⟩, rest⟩
  · unfold evictLRU
    rw [hent]
    simpa [hent] using hnd
  · unfold evictLRU
    rw [hent]
    rw [hent] at hnd
    simp only [memDelete]
    simp only [List.map_cons, List.nodup_cons] at hnd
    exact hnd.2

theorem memoryEvictLoop_nodup (c : LRUCache α)
    (hnd : (c.entries.map Prod.fst).Nodup) :
    ((memoryEvictLoop c).entries.map Prod.fst).Nodup := by
  suffices H : ∀ (n : Nat) (c : LRUCache α), c.entries.length ≤ n →
      (c.entries.map Prod.fst).Nodup →
      ((memoryEvictLoop c).entries.map Prod.fst).Nodup from
    H c.entries.length c le_rfl hnd
  intro n
  induction n with
  | zero =>
      intro c hc hnd
      rw [memoryEvictLoop]
      split
      · split
        · exact hnd
        · rename_i hl
          rw [hl] at hc
          simp at hc
      · exact hnd
  | succ n ih =>
      intro c hc hnd
      rw [memoryEvictLoop]
      split
      · split
        · exact hnd
        · rename_i p rest hl
          have h1 := evictLRU_length_cons c p rest hl
          exact ih (evictLRU c) (by omega) (evictLRU_nodup c hnd)
      · exact hnd

theorem cleanup_nodup (c : LRUCache α) (now : Int)
    (hnd : (c.entries.map Prod.fst).Nodup) :
    (((cleanup c now).2.entries).map Prod.fst).Nodup := by
  rw [cleanup_entries]
  exact ((c.entries.filter_sublist.map Prod.fst).nodup hnd)

theorem performMemoryCleanup_nodup (c : LRUCache α) (now : Int)
    (hnd : (c.entries.map Prod.fst).Nodup) :
    ((performMemoryCleanup c now).entries.map Prod.fst).Nodup := by
  unfold performMemoryCleanup
  exact memoryEvictLoop_nodup _ (cleanup_nodup c now hnd)

theorem setStep_nodup (c : LRUCache α) (k : String) (ne : CacheEntry α)
    (hkeys : k ∉ c.entries.map Prod.fst)
    (hnd : (c.entries.map Prod.fst).Nodup) :
    (((memAdd { c with entries := entriesSet c.entries k ne } k
        ne).entries).map Prod.fst).Nodup := by
  simp only [memAdd]
  rw [entriesSet_of_not_mem c.entries k ne hkeys]
  simpa using nodup_keys_append_single _ k hnd hkeys

theorem set_nodup (c : LRUCache α) (k : String) (v : α) (ttl : Option Int)
    (now : Int) (hnd : (c.entries.map Prod.fst).Nodup) :
    ((set c k v ttl now).entries.map Prod.fst).Nodup := by
  cases hg : entriesGet c.entries k with
  | some ex =>
      have hkeys : k ∉ (entriesDelete c.entries k).map Prod.fst :=
        nodup_not_mem_entriesDelete c.entries k hnd
      have hnd1 : ((entriesDelete c.entries k).map Prod.fst).Nodup :=
        (keys_entriesDelete_sublist c.entries k).nodup hnd
      have hmain := setStep_nodup
        (memDelete { c with entries := entriesDelete c.entries k } k ex) k
        ({ value := v, timestamp := now, ttl := ttl.getD c.defaultTTL
           size := some (c.estimate k v) }) hkeys hnd1
      simp only [set, hg]
      split
      · exact performMemoryCleanup_nodup _ now hmain
      · exact hmain
  | none =>
      have hk0 : k ∉ c.entries.map Prod.fst :=
        entriesGet_none_not_mem c.entries k hg
      by_cases hcap : c.maxSize ≤ c.entries.length
      · have hkev : k ∉ (evictLRU c).entries.map Prod.fst := by
          intro hmem
          apply hk0
          rcases hent : c.entries with _ | ⟨⟨pk, pe⟩, rest⟩
          · unfold evictLRU at hmem
            rw [hent] at hmem
            simpa [hent] using hmem
          · unfold evictLRU at hmem
            rw [hent] at hmem
            simp only [memDelete] at hmem
            simp only [List.map_cons, List.mem_cons]
            right
            simpa using hmem
        have hmain := setStep_nodup (evictLRU c) k
          ({ value := v, timestamp := now, ttl := ttl.getD c.defaultTTL
             size := some (c.estimate k v) }) hkev (evictLRU_nodup c hnd)
        simp only [set, hg, if_pos hcap]
        split
        · exact performMemoryCleanup_nodup _ now hmain
        · exact hmain
      · have hmain := setStep_nodup c k
          ({ value := v, timestamp := now, ttl := ttl.getD c.defaultTTL
             size := some (c.estimate k v) }) hk0 hnd
        simp only [set, hg, if_neg hcap]
        split
        · exact performMemoryCleanup_nodup _ now hmain
        · exact hmain

theorem get_nodup (c : LRUCache α) (k : String) (now : Int)
    (hnd : (c.entries.map Prod.fst).Nodup) :
    (((get c k now).2.entries).map Prod.fst).Nodup := by
  cases hg : entriesGet c.entries k with
  | none => simpa [get, hg] using hnd
  | some e =>
      have hkeys : k ∉ (entriesDelete c.entries k).map Prod.fst :=
        nodup_not_mem_entriesDelete c.entries k hnd
      have hnd1 : ((entriesDelete c.entries k).map Prod.fst).Nodup :=
        (keys_entriesDelete_sublist c.entries k).nodup hnd
      rcases hex : isExpired e now with _ | _
      · simp only [get, hg, hex, Bool.false_eq_true, if_false]
        rw [entriesSet_of_not_mem _ _ _ hkeys]
        simpa using nodup_keys_append_single _ k hnd1 hkeys
      · simp only [get, hg, hex, if_true, memDelete]
        exact hnd1

theorem has_nodup (c : LRUCache α) (k : String) (now : Int)
    (hnd : (c.entries.map Prod.fst).Nodup) :
    (((has c k now).2.entries).map Prod.fst).Nodup := by
  cases hg : entriesGet c.entries k with
  | none => simpa [has, hg] using hnd
  | some e =>
      rcases hex : isExpired e now with _ | _
      · simpa [has, hg, hex] using hnd
      · simp only [has, hg, hex, if_true]
        exact (keys_entriesDelete_sublist c.entries k).nodup hnd

theorem deleteKey_nodup (c : LRUCache α) (k : String)
    (hnd : (c.entries.map Prod.fst).Nodup) :
    (((deleteKey c k).2.entries).map Prod.fst).Nodup := by
  cases hg : entriesGet c.entries k with
  | none => simpa [deleteKey, hg] using hnd
  | some e =>
      simp only [deleteKey, hg, memDelete]
      exact (keys_entriesDelete_sublist c.entries k).nodup hnd

theorem applyOp_inv (c : LRUCache α) (op : CacheOp α)
    (hnd : (c.entries.map Prod.fst).Nodup) (h : MemInv c) :
    (((applyOp c op).entries).map Prod.fst).Nodup ∧
    ((∀ k now, op ≠ CacheOp.hasOp k now) → MemInv (applyOp c op)) := by
  rcases op with ⟨k, v, ttl, now⟩ | ⟨k, now⟩ | ⟨k, now⟩ | k | _ | now
  · exact ⟨set_nodup c k v ttl now hnd,
      fun _ => set_meminv c k v ttl now hnd h⟩
  · exact ⟨get_nodup c k now hnd, fun _ => get_meminv c k now hnd h⟩
  · exact ⟨has_nodup c k now hnd, fun hno => absurd rfl (hno k now)⟩
  · exact ⟨deleteKey_nodup c k hnd, fun _ => deleteKey_meminv c k h⟩
  · exact ⟨by simp [applyOp, clear], fun _ => clear_meminv c⟩
  · exact ⟨cleanup_nodup c now hnd, fun _ => cleanup_meminv c now h⟩

/-- Claim C8 (amended): the memory-accounting invariant (the cache's
currentMemoryUsage equals the sum of the stored entries' size
estimates) holds after any sequence of cache operations that avoids
has; has removes an expired entry without subtracting its size, which
breaks the invariant. -/
theorem claim_C8_memory_accounting_amended (α : Type) (M : Nat) (dTTL : Int)
    (thr : Nat) (est : String → α → Nat) (ops : List (CacheOp α))
    (hno : ∀ op ∈ ops, ∀ k now, op ≠ CacheOp.hasOp k now) :
    MemInv (ops.foldl applyOp (mk0 M dTTL thr est)) := by
  suffices H : ∀ (ops : List (CacheOp α)) (c : LRUCache α),
      (∀ op ∈ ops, ∀ k now, op ≠ CacheOp.hasOp k now) →
      (c.entries.map Prod.fst).Nodup → MemInv c →
      MemInv (ops.foldl applyOp c) by
    refine H ops (mk0 M dTTL thr est) hno (by simp [mk0]) ?_
    rw [memInv_iff]
    simp [mk0, sizesOf]
  intro ops
  induction ops with
  | nil => exact fun c _ _ h => h
  | cons op rest ih =>
      intro c hno hnd h
      have hop := applyOp_inv c op hnd h
      simp only [List.foldl_cons]
      exact ih (applyOp c op)
        (fun o ho k now => hno o (List.mem_cons_of_mem op ho) k now)
        hop.1 (hop.2 (fun k now => hno op (List.mem_cons_self op rest) k now))

/-- Claim C8 counterexample: a has on an expired entry deletes it
without adjusting currentMemoryUsage, leaving 60 counted bytes for an
empty cache. -/
theorem claim_C8_memory_counterexample :
    MemInv cacheExpiredEntry ∧
    (has cacheExpiredEntry "A" 1).2.entries = [] ∧
    (has cacheExpiredEntry "A" 1).2.currentMemoryUsage = 60 ∧
    ¬ MemInv (has cacheExpiredEntry "A" 1).2 := by
  refine ⟨rfl, rfl, rfl, ?_⟩
  intro hbad
  have h60 : (60 : Nat) = 0 := hbad
  simp at h60

theorem claim_C8_memory_accounting_amended_witness :
    (∀ op ∈ ([CacheOp.setOp "A" 1 none 0, CacheOp.getOp "A" 1] :
        List (CacheOp Nat)), ∀ k now, op ≠ CacheOp.hasOp k now) ∧
    MemInv (([CacheOp.setOp "A" 1 none 0, CacheOp.getOp "A" 1] :
      List (CacheOp Nat)).foldl applyOp
        (mk0 3 300000 52428800 estimateNum)) := by
  have hno : ∀ op ∈ ([CacheOp.setOp "A" 1 none 0, CacheOp.getOp "A" 1] :
      List (CacheOp Nat)), ∀ k now, op ≠ CacheOp.hasOp k now := by
    intro op hop k now
    simp only [List.mem_cons, List.not_mem_nil, or_false] at hop
    rcases hop with h | h <;> subst h <;> simp
  exact ⟨hno, claim_C8_memory_accounting_amended Nat 3 300000 52428800
    estimateNum [CacheOp.setOp "A" 1 none 0, CacheOp.getOp "A" 1] hno⟩

end RealtimeRegister.LRUCache

namespace RealtimeRegister.SlidingWindowRateLimiter

theorem sum_windowsSet_incr (l : List (Int × Nat)) (k : Int) :
    ((windowsSet l k ((windowsGet l k).getD 0 + 1)).map (fun p => p.2)).sum =
      (l.map (fun p => p.2)).sum + 1 := by
  induction l with
  | nil => simp [windowsSet, windowsGet]
  | cons p rest ih =>
      rcases hpk : (p.1 == k) with _ | _
      · have hget : windowsGet (p :: rest) k = windowsGet rest k := by
          simp [windowsGet, List.find?, hpk]
        unfold windowsSet
        rw [if_neg (by simp [hpk]), hget]
        simp only [List.map_cons, List.sum_cons, ih]
        omega
      · have hget : windowsGet (p :: rest) k = some p.2 := by
          simp [windowsGet, List.find?, hpk]
        unfold windowsSet
        rw [if_pos hpk, hget]
        simp only [Option.getD_some, List.map_cons, List.sum_cons]
        omega

theorem sum_filter_le (l : List (Int × Nat)) (P : Int × Nat → Bool) :
    ((l.filter P).map (fun p => p.2)).sum ≤ (l.map (fun p => p.2)).sum := by
  induction l with
  | nil => simp
  | cons p rest ih =>
      rcases hp : P p with _ | _ <;>
        simp only [List.filter_cons, hp, Bool.false_eq_true, if_false,
          if_true, List.map_cons, List.sum_cons] <;>
        omega

/-- Claim C4: whenever a consuming checkLimit call is allowed, the sum
of the per-sub-window counts whose start time lies within
[now - periodMs, now], including the just-consumed increment, stays at
or below maxRequests. -/
theorem claim_C4_admission_invariant (rl : SlidingWindowRateLimiter)
    (now : Int) (h : (checkLimit rl now true).1.allowed = true) :
    sumCountsInRange (checkLimit rl now true).2.windows
      (now - rl.config.periodMs) now ≤ rl.config.maxRequests := by
  have husage : getCurrentUsage (cleanupExpiredWindows rl now) <
      rl.config.maxRequests := by
    have h1 : (checkLimit rl now true).1.allowed =
        decide (getCurrentUsage (cleanupExpiredWindows rl now) <
          rl.config.maxRequests) := rfl
    rw [h1] at h
    exact of_decide_eq_true h
  have hwin : (checkLimit rl now true).2.windows =
      windowsSet (cleanupExpiredWindows rl now).windows
        (getWindowKey rl.config now)
        ((windowsGet (cleanupExpiredWindows rl now).windows
          (getWindowKey rl.config now)).getD 0 + 1) := by
    simp only [checkLimit]
    rw [if_pos]
    simp only [Bool.and_true]
    exact decide_eq_true husage
  rw [hwin]
  calc sumCountsInRange (windowsSet (cleanupExpiredWindows rl now).windows
        (getWindowKey rl.config now)
        ((windowsGet (cleanupExpiredWindows rl now).windows
          (getWindowKey rl.config now)).getD 0 + 1))
        (now - rl.config.periodMs) now
      ≤ ((windowsSet (cleanupExpiredWindows rl now).windows
          (getWindowKey rl.config now)
          ((windowsGet (cleanupExpiredWindows rl now).windows
            (getWindowKey rl.config now)).getD 0 + 1)).map
          (fun p => p.2)).sum := sum_filter_le _ _
    _ = ((cleanupExpiredWindows rl now).windows.map (fun p => p.2)).sum + 1 :=
        sum_windowsSet_incr _ _
    _ ≤ rl.config.maxRequests := husage

theorem claim_C4_admission_invariant_witness :
    (checkLimit (mk0 rlCfgScenario) 0 true).1.allowed = true ∧
    sumCountsInRange (checkLimit (mk0 rlCfgScenario) 0 true).2.windows
      (0 - (mk0 rlCfgScenario).config.periodMs) 0 ≤
      (mk0 rlCfgScenario).config.maxRequests := by
  have hall : (checkLimit (mk0 rlCfgScenario) 0 true).1.allowed = true := by
    decide
  exact ⟨hall, claim_C4_admission_invariant (mk0 rlCfgScenario) 0 hall⟩

theorem rlAfterTen_eq :
    rlAfterTen = { config := rlCfgScenario, windows := [(0, 10)] } := rfl

/-- Claim C7: with maxRequests 10, windowMs 10000, periodMs 60000 and
ten requests consumed at time 0, an eleventh consuming call within the
period is denied with remaining 0 and a positive retryAfter, and once
the clock passes periodMs after the first request the old usage is
purged and the next call is allowed. -/
theorem claim_C7_rate_limiter_scenario :
    rlAfterTen.windows = [(0, 10)] ∧
    (∀ t : Int, 0 ≤ t → t < 60000 →
      (checkLimit rlAfterTen t true).1.allowed = false ∧
      (checkLimit rlAfterTen t true).1.remaining = 0 ∧
      (checkLimit rlAfterTen t true).1.retryAfter = some (60000 - t) ∧
      0 < 60000 - t) ∧
    (∀ t : Int, 60000 < t →
      (checkLimit rlAfterTen t true).1.allowed = true ∧
      (checkLimit rlAfterTen t true).2.windows =
        [(getWindowKey rlCfgScenario t, 1)]) := by
  refine ⟨by rw [rlAfterTen_eq], ?_, ?_⟩
  · intro t h0 h1
    rw [rlAfterTen_eq]
    have hkeep : t ≤ (60000 : Int) := by omega
    have hpos : 0 < 60000 - t := by omega
    refine ⟨?_, ?_, ?_, hpos⟩ <;>
      simp [checkLimit, cleanupExpiredWindows, getCurrentUsage,
        getRetryAfter, oldestNonEmptyWindow, windowsGet, windowsSet,
        rlCfgScenario, hkeep, List.filter_cons]
  · intro t h1
    rw [rlAfterTen_eq]
    have hdrop : ¬ (t ≤ (60000 : Int)) := by omega
    constructor <;>
      simp [checkLimit, cleanupExpiredWindows, getCurrentUsage,
        windowsGet, windowsSet, rlCfgScenario, hdrop, List.filter_cons]

theorem claim_C7_rate_limiter_scenario_witness :
    ((0 : Int) ≤ 5000 ∧ (5000 : Int) < 60000 ∧ (60000 : Int) < 60001) ∧
    (checkLimit rlAfterTen 5000 true).1.allowed = false ∧
    (checkLimit rlAfterTen 5000 true).1.remaining = 0 ∧
    (checkLimit rlAfterTen 60001 true).1.allowed = true := by
  refine ⟨⟨by norm_num, by norm_num, by norm_num⟩, ?_, ?_, ?_⟩
  · exact (claim_C7_rate_limiter_scenario.2.1 5000 (by norm_num)
      (by norm_num)).1
  · exact (claim_C7_rate_limiter_scenario.2.1 5000 (by norm_num)
      (by norm_num)).2.1
  · exact (claim_C7_rate_limiter_scenario.2.2 60001 (by norm_num)).1

end RealtimeRegister.SlidingWindowRateLimiter

namespace RealtimeRegister.ApiMonitor

theorem monAfterTwo_eq :
    monAfterTwo =
      { config := monCfgScenario
        alerts :=
          [{ id := 0, timestamp := 0, type := .RATE_LIMIT_EXCEEDED,
             severity := .ERROR, identifier := some "api",
             source := .rate_limiter, resolved := false, resolvedAt := none },
           { id := 1, timestamp := 1, type := .RATE_LIMIT_EXCEEDED,
             severity := .ERROR, identifier := some "api",
             source := .rate_limiter, resolved := false, resolvedAt := none }]
        apiMetrics :=
          { totalRequests := 0, successfulRequests := 0, failedRequests := 0
            averageResponseTime := 0, lastRequestTime := none
            lastErrorTime := none, errorRate := 0 }
        startTime := 0
        requestTimes := []
        nextAlertId := 2
        emitted :=
          [{ id := 0, timestamp := 0, type := .RATE_LIMIT_EXCEEDED,
             severity := .ERROR, identifier := some "api",
             source := .rate_limiter, resolved := false, resolvedAt := none },
           { id := 1, timestamp := 1, type := .RATE_LIMIT_EXCEEDED,
             severity := .ERROR, identifier := some "api",
             source := .rate_limiter, resolved := false,
             resolvedAt := none }] } := by
  norm_num [monAfterTwo, monitorRateLimit, createAlert, cleanupAlerts,
    mk0, monCfgScenario, defaultConfig, deniedResult]

/-- Claim C9 counterexample: two denied rate-limit results observed one
millisecond apart both append (and emit) a RATE_LIMIT_EXCEEDED alert,
even though the second arrives well inside the aggregation window, so
alerts of that type are not de-duplicated. -/
theorem claim_C9_dedup_counterexample :
    monAfterTwo.alerts.length = 2 ∧
    monAfterTwo.alerts.map (fun a => a.type) =
      [.RATE_LIMIT_EXCEEDED, .RATE_LIMIT_EXCEEDED] ∧
    monAfterTwo.alerts.map (fun a => a.timestamp) = [0, 1] ∧
    monAfterTwo.config.alertAggregationWindow = 60000 ∧
    monAfterTwo.emitted.length = 2 := by
  rw [monAfterTwo_eq]
  exact ⟨rfl, rfl, rfl, rfl, rfl⟩

theorem createAlert_config (m : ApiMonitor) (type : MonitoringEventType)
    (severity : AlertSeverity) (identifier : Option String)
    (source : AlertSource) (now : Int) :
    (createAlert m type severity identifier source now).config =
      m.config := by
  simp only [createAlert]
  split
  · rfl
  · split <;> split <;> simp [cleanupAlerts]

theorem createAlert_append (m : ApiMonitor) (type : MonitoringEventType)
    (severity : AlertSeverity) (identifier : Option String)
    (source : AlertSource) (now : Int) (hen : m.config.enabled = true)
    (hmod : (m.alerts.length + 1) % 100 ≠ 0) :
    (createAlert m type severity identifier source now).alerts =
      m.alerts ++
        [{ id := m.nextAlertId, timestamp := now, type := type,
           severity := severity, identifier := identifier, source := source,
           resolved := false, resolvedAt := none }] := by
  simp only [createAlert, hen, Bool.not_true, Bool.false_eq_true, if_false]
  split <;>
    rw [if_neg (by
      simp only [List.length_append, List.length_cons, List.length_nil,
        beq_iff_eq]
      omega)]

/-- Claim C9 (amended): the aggregation-window de-duplication guards
exactly the alerts routed through isRecentAlert, namely the
circuit-breaker-opened alert and the high-failure-rate performance
warning of monitorCircuitBreaker: with a recent same-type alert the
monitor is returned unchanged (nothing appended or emitted), without
one the alert is appended.  Every other alert path appends
unconditionally whenever its trigger holds, with no recency check:
rate-limit exceeded, rate-limit warning, circuit-breaker half-open,
API error and the slow-response performance warning. -/
theorem claim_C9_dedup_amended :
    (∀ (m : ApiMonitor) (identifier : String)
        (metrics : CircuitBreakerMetricsView) (now : Int),
      metrics.state = .OPEN → metrics.totalRequests < 10 →
      isRecentAlert m .CIRCUIT_BREAKER_OPENED now = true →
      monitorCircuitBreaker m identifier metrics now = m) ∧
    (∀ (m : ApiMonitor) (identifier : String)
        (metrics : CircuitBreakerMetricsView) (now : Int),
      metrics.state = .OPEN → metrics.totalRequests < 10 →
      m.config.enabled = true →
      isRecentAlert m .CIRCUIT_BREAKER_OPENED now = false →
      (m.alerts.length + 1) % 100 ≠ 0 →
      (monitorCircuitBreaker m identifier metrics now).alerts =
        m.alerts ++
          [{ id := m.nextAlertId, timestamp := now,
             type := .CIRCUIT_BREAKER_OPENED, severity := .CRITICAL,
             identifier := some identifier, source := .circuit_breaker,
             resolved := false, resolvedAt := none }]) ∧
    (∀ (m : ApiMonitor) (identifier : String)
        (metrics : CircuitBreakerMetricsView) (now : Int),
      metrics.state = .CLOSED →
      (m.alerts.filter (isUnresolvedOpenAlert identifier)).length = 0 →
      m.config.circuitBreakerFailureThreshold ≤
        (metrics.totalFailures : ℚ) / (metrics.totalRequests : ℚ) * 100 →
      10 ≤ metrics.totalRequests →
      isRecentAlert m .PERFORMANCE_WARNING now = true →
      monitorCircuitBreaker m identifier metrics now = m) ∧
    (∀ (m : ApiMonitor) (identifier : String)
        (metrics : CircuitBreakerMetricsView) (now : Int),
      metrics.state = .CLOSED →
      (m.alerts.filter (isUnresolvedOpenAlert identifier)).length = 0 →
      m.config.circuitBreakerFailureThreshold ≤
        (metrics.totalFailures : ℚ) / (metrics.totalRequests : ℚ) * 100 →
      10 ≤ metrics.totalRequests →
      m.config.enabled = true →
      isRecentAlert m .PERFORMANCE_WARNING now = false →
      (m.alerts.length + 1) % 100 ≠ 0 →
      (monitorCircuitBreaker m identifier metrics now).alerts =
        m.alerts ++
          [{ id := m.nextAlertId, timestamp := now,
             type := .PERFORMANCE_WARNING, severity := .WARNING,
             identifier := some identifier, source := .circuit_breaker,
             resolved := false, resolvedAt := none }]) ∧
    (∀ (m : ApiMonitor) (identifier : String) (result : RateLimitResult)
        (now : Int),
      m.config.enabled = true → result.allowed = false →
      ¬ (m.config.rateLimitWarningThreshold ≤
        ((result.limit : ℚ) - (result.remaining : ℚ)) / (result.limit : ℚ)
          * 100) →
      (m.alerts.length + 1) % 100 ≠ 0 →
      (monitorRateLimit m identifier result now).alerts =
        m.alerts ++
          [{ id := m.nextAlertId, timestamp := now,
             type := .RATE_LIMIT_EXCEEDED, severity := .ERROR,
             identifier := some identifier, source := .rate_limiter,
             resolved := false, resolvedAt := none }]) ∧
    (∀ (m : ApiMonitor) (identifier : String) (result : RateLimitResult)
        (now : Int),
      m.config.enabled = true → result.allowed = true →
      m.config.rateLimitWarningThreshold ≤
        ((result.limit : ℚ) - (result.remaining : ℚ)) / (result.limit : ℚ)
          * 100 →
      (m.alerts.length + 1) % 100 ≠ 0 →
      (monitorRateLimit m identifier result now).alerts =
        m.alerts ++
          [{ id := m.nextAlertId, timestamp := now,
             type := .RATE_LIMIT_WARNING, severity := .WARNING,
             identifier := some identifier, source := .rate_limiter,
             resolved := false, resolvedAt := none }]) ∧
    (∀ (m : ApiMonitor) (identifier : String)
        (metrics : CircuitBreakerMetricsView) (now : Int),
      metrics.state = .HALF_OPEN → metrics.totalRequests < 10 →
      m.config.enabled = true →
      (m.alerts.length + 1) % 100 ≠ 0 →
      (monitorCircuitBreaker m identifier metrics now).alerts =
        m.alerts ++
          [{ id := m.nextAlertId, timestamp := now,
             type := .CIRCUIT_BREAKER_HALF_OPEN, severity := .WARNING,
             identifier := some identifier, source := .circuit_breaker,
             resolved := false, resolvedAt := none }]) ∧
    (∀ (m : ApiMonitor) (duration : ℚ) (endpoint : Option String)
        (now : Int),
      m.config.enabled = true →
      ¬ (m.config.responseTimeThreshold < duration) →
      (m.alerts.length + 1) % 100 ≠ 0 →
      (monitorApiRequest m duration false endpoint now).alerts =
        m.alerts ++
          [{ id := m.nextAlertId, timestamp := now,
             type := .API_ERROR, severity := .ERROR,
             identifier := endpoint, source := .api_client,
             resolved := false, resolvedAt := none }]) ∧
    (∀ (m : ApiMonitor) (duration : ℚ) (endpoint : Option String)
        (now : Int),
      m.config.enabled = true →
      m.config.responseTimeThreshold < duration →
      (m.alerts.length + 1) % 100 ≠ 0 →
      (monitorApiRequest m duration true endpoint now).alerts =
        m.alerts ++
          [{ id := m.nextAlertId, timestamp := now,
             type := .PERFORMANCE_WARNING, severity := .WARNING,
             identifier := endpoint, source := .api_client,
             resolved := false, resolvedAt := none }]) := by
  refine ⟨?_, ?_, ?_, ?_, ?_, ?_, ?_, ?_, ?_⟩
  · intro m identifier metrics now hopen hreq hrec
    have hnotrate : ¬ (m.config.circuitBreakerFailureThreshold ≤
        (if 0 < metrics.totalRequests then
          (metrics.totalFailures : ℚ) / (metrics.totalRequests : ℚ) * 100
        else 0) ∧ 10 ≤ metrics.totalRequests) := by
      rintro ⟨-, h10⟩
      omega
    by_cases hen : m.config.enabled
    · simp only [monitorCircuitBreaker, hen, hopen, hrec, Bool.not_true,
        Bool.false_eq_true, if_false]
      rw [if_neg hnotrate]
    · simp only [monitorCircuitBreaker, hen, Bool.not_false, if_true]
  · intro m identifier metrics now hopen hreq hen hrec hmod
    have hnotrate : ¬ (m.config.circuitBreakerFailureThreshold ≤
        (if 0 < metrics.totalRequests then
          (metrics.totalFailures : ℚ) / (metrics.totalRequests : ℚ) * 100
        else 0) ∧ 10 ≤ metrics.totalRequests) := by
      rintro ⟨-, h10⟩
      omega
    simp only [monitorCircuitBreaker, hen, hopen, hrec, Bool.not_false,
      Bool.not_true, if_true, Bool.false_eq_true, if_false]
    simp only [createAlert_config]
    rw [if_neg hnotrate]
    exact createAlert_append m _ _ _ _ now hen hmod
  · intro m identifier metrics now hst hfil hrate hreq hrec
    have hfr : (if 0 < metrics.totalRequests then
        (metrics.totalFailures : ℚ) / (metrics.totalRequests : ℚ) * 100
      else 0) =
        (metrics.totalFailures : ℚ) / (metrics.totalRequests : ℚ) * 100 :=
      if_pos (by omega)
    by_cases hen : m.config.enabled
    · simp only [monitorCircuitBreaker, hen, hst, Bool.not_true,
        Bool.false_eq_true, if_false, hfil, ne_eq, not_true_eq_false,
        if_true, hfr]
      rw [if_pos ⟨hrate, hreq⟩]
      simp only [hrec, Bool.not_true, Bool.false_eq_true, if_false]
    · simp only [monitorCircuitBreaker, hen, Bool.not_false, if_true]
  · intro m identifier metrics now hst hfil hrate hreq hen hrec hmod
    have hfr : (if 0 < metrics.totalRequests then
        (metrics.totalFailures : ℚ) / (metrics.totalRequests : ℚ) * 100
      else 0) =
        (metrics.totalFailures : ℚ) / (metrics.totalRequests : ℚ) * 100 :=
      if_pos (by omega)
    simp only [monitorCircuitBreaker, hen, hst, Bool.not_true,
      Bool.false_eq_true, if_false, hfil, ne_eq, not_true_eq_false,
      if_true, hfr]
    rw [if_pos ⟨hrate, hreq⟩]
    simp only [hrec, Bool.not_false, if_true]
    exact createAlert_append m _ _ _ _ now hen hmod
  · intro m identifier result now hen hall hwarn hmod
    simp only [monitorRateLimit, hen, Bool.not_true, Bool.false_eq_true,
      if_false]
    rw [if_neg hwarn]
    simp only [hall, Bool.not_false, if_true]
    exact createAlert_append m _ _ _ _ now hen hmod
  · intro m identifier result now hen hall hwarn hmod
    simp only [monitorRateLimit, hen, Bool.not_true, Bool.false_eq_true,
      if_false]
    rw [if_pos hwarn]
    simp only [hall, Bool.not_true, Bool.false_eq_true, if_false]
    exact createAlert_append m _ _ _ _ now hen hmod
  · intro m identifier metrics now hst hreq hen hmod
    have hnotrate : ¬ (m.config.circuitBreakerFailureThreshold ≤
        (if 0 < metrics.totalRequests then
          (metrics.totalFailures : ℚ) / (metrics.totalRequests : ℚ) * 100
        else 0) ∧ 10 ≤ metrics.totalRequests) := by
      rintro ⟨-, h10⟩
      omega
    simp only [monitorCircuitBreaker, hen, hst, Bool.not_true,
      Bool.false_eq_true, if_false]
    simp only [createAlert_config]
    rw [if_neg hnotrate]
    exact createAlert_append m _ _ _ _ now hen hmod
  · intro m duration endpoint now hen hslow hmod
    simp only [monitorApiRequest, hen, Bool.not_true, Bool.false_eq_true,
      if_false, Bool.not_false, if_true]
    rw [if_neg hslow]
    exact createAlert_append _ _ _ _ _ now hen hmod
  · intro m duration endpoint now hen hslow hmod
    simp only [monitorApiRequest, hen, Bool.not_true, Bool.false_eq_true,
      if_false, Bool.not_false, if_true]
    rw [if_pos hslow]
    exact createAlert_append _ _ _ _ _ now hen hmod

theorem claim_C9_dedup_amended_witness :
    (isRecentAlert monRecentOpen .CIRCUIT_BREAKER_OPENED 1 = true ∧
      isRecentAlert monRecentPerf .PERFORMANCE_WARNING 1 = true ∧
      (monRecentPerf.alerts.filter (isUnresolvedOpenAlert "cb")).length =
        0) ∧
    monitorCircuitBreaker monRecentOpen "cb"
      { state := .OPEN, totalRequests := 1, totalFailures := 1 } 1 =
      monRecentOpen ∧
    monitorCircuitBreaker monRecentPerf "cb"
      { state := .CLOSED, totalRequests := 10, totalFailures := 10 } 1 =
      monRecentPerf ∧
    (monitorRateLimit (mk0 monCfgScenario 0) "api" deniedResult 0).alerts =
      (mk0 monCfgScenario 0).alerts ++
        [{ id := (mk0 monCfgScenario 0).nextAlertId, timestamp := 0,
           type := .RATE_LIMIT_EXCEEDED, severity := .ERROR,
           identifier := some "api", source := .rate_limiter,
           resolved := false, resolvedAt := none }] := by
  obtain ⟨h1, h2, h3, h4, h5, h6, h7, h8, h9⟩ := claim_C9_dedup_amended
  refine ⟨⟨by decide, by decide, by decide⟩, ?_, ?_, ?_⟩
  · exact h1 monRecentOpen "cb"
      { state := .OPEN, totalRequests := 1, totalFailures := 1 } 1 rfl
      (by norm_num) (by decide)
  · exact h3 monRecentPerf "cb"
      { state := .CLOSED, totalRequests := 10, totalFailures := 10 } 1 rfl
      (by decide)
      (by norm_num [monRecentPerf, monCfgScenario, defaultConfig])
      (by norm_num) (by decide)
  · exact h5 (mk0 monCfgScenario 0) "api" deniedResult 0 rfl rfl
      (by norm_num [mk0, monCfgScenario, defaultConfig, deniedResult])
      (by decide)

end RealtimeRegister.ApiMonitor
